import Mathlib

/-!
Atlas Cloud plugin: credential resolution, key storage and model catalog.

A shallow embedding of `src/server/config.ts`, `src/server/models.ts`, the
command handlers and the config hook of `src/index.ts`, and `registerPlugin` of
`bin/setup.cjs`.

Modelling decisions.

* A file is described by what `fs.existsSync` / `fs.readFileSync` / `JSON.parse`
  make of it: missing, present but unreadable or not JSON, or holding a JSON value.
  `fs.writeFileSync(path, JSON.stringify(v, null, 2))` makes the file hold `v`
  (every value written by this code is a JSON value built from parsed values
  and strings).
* A JSON object is its list of own properties in property order. Numbers are
  kept as integers; the code only ever tests them for being zero.
* Strings are sequences of characters; case mapping is the ASCII one, which is
  what `toLowerCase` / `toUpperCase` do on ASCII text.
* The module-level object `DEFAULT_CONFIG` is shared and mutable: `loadConfig`
  returns that very object on its last line, so the state records the `apiKey`
  property that callers may have put on it.
* Writing a file can throw (`mkdirSync` / `writeFileSync`); the state records,
  per file, the error a write attempt throws, if any.
* The list endpoint is an oracle indexed by the number of requests made so far
  and the key sent.
-/

namespace AtlasCloud

/-! ## JavaScript values -/

/-- Values produced by `JSON.parse`. -/
inductive Json where
  | null
  | bool (b : Bool)
  | num (n : Int)
  | str (s : String)
  | arr (items : List Json)
  | obj (fields : List (String × Json))

/-- Own properties of a plain object, in property order. -/
abbrev JsObject := List (String × Json)

/-- Result of a property read: `none` is `undefined`. -/
abbrev Val := Option Json

/-- JavaScript truthiness (`if (x)`, `!x`, `x || y`). -/
def truthy : Val → Bool
  | none => false
  | some .null => false
  | some (.bool b) => b
  | some (.num n) => n != 0
  | some (.str s) => s != ""
  | some (.arr _) => true
  | some (.obj _) => true

/-- Property read `o[k]` on a plain object. -/
def getProp : JsObject → String → Val
  | [], _ => none
  | (k', v) :: rest, k => if k' = k then some v else getProp rest k

/-- Property assignment `o.k = v` on a plain object, for a name `k` other than
`__proto__`: an existing property keeps its place, a new one goes last. -/
def setOwn : JsObject → String → Json → JsObject
  | [], k, v => [(k, v)]
  | (k', v') :: rest, k, v =>
    if k' = k then (k', v) :: rest else (k', v') :: setOwn rest k v

/-- Assignment `o[k] = v` with a computed key, as in `auth[key] = value`:
assigning to `__proto__` goes to the inherited setter and creates no own
property. -/
def setProp (o : JsObject) (k : String) (v : Json) : JsObject :=
  if k = "__proto__" then o else setOwn o k v

/-- Operator `delete o[k]` on a plain object. -/
def deleteProp (o : JsObject) (k : String) : JsObject :=
  o.filter (fun p => p.1 != k)

/-- Test `v === s` for a string literal `s`. -/
def isString (v : Val) (s : String) : Bool :=
  match v with
  | some (.str t) => t == s
  | _ => false

/-- Property read `v.k` on an arbitrary parsed value, for the names used by this
code (`apiKey`, `atlascloud`, `type`, `key`, `data`, `id`): only objects have
such a property. Reading from `null` throws; that case is handled where it
occurs. -/
def propOf : Json → String → Val
  | .obj fs, k => getProp fs k
  | _, _ => none

/-- A thrown JavaScript error. -/
structure JsError where
  name : String
  message : String

/-- The expression `e.message || e` inside a template literal. -/
def JsError.render (e : JsError) : String :=
  if e.message != "" then e.message
  else if e.name = "" then e.message else e.name

/-! ## Process and file-system state -/

/-- What the code can observe of one file. -/
inductive FileState where
  | missing
  | garbled
  | holds (v : Json)

/-- State of the two key files, the environment and the module. -/
structure World where
  configFile : FileState
  authFile : FileState
  env : Option String
  defaultApiKey : Option String
  configWriteError : Option JsError
  authWriteError : Option JsError
  requests : Nat

/-- A process that has just started on a writable file system. -/
def World.boot (configFile authFile : FileState) (env : Option String) : World :=
  { configFile := configFile, authFile := authFile, env := env,
    defaultApiKey := none, configWriteError := none, authWriteError := none,
    requests := 0 }

/-- Outcome of a call that may throw after having changed the state. -/
inductive Outcome (α : Type) where
  | ok (a : α) (w : World)
  | threw (e : JsError) (w : World)

/-! ## `src/server/config.ts` -/

/-- The object `DEFAULT_CONFIG` as it currently is. -/
def DEFAULT_CONFIG (w : World) : JsObject :=
  match w.defaultApiKey with
  | none => [("version", .str "1.0.0")]
  | some k => [("version", .str "1.0.0"), ("apiKey", .str k)]

/-- What `loadConfig` returns: the object, and whether it is `DEFAULT_CONFIG`
itself rather than a fresh object. -/
structure Loaded where
  config : JsObject
  isDefault : Bool

/-- Lines 33-43 of `loadConfig`: the own config file. -/
def loadLocal : FileState → Option JsObject
  | .missing => none
  | .garbled => none
  | .holds .null => none
  | .holds (.obj fs) => if truthy (getProp fs "apiKey") then some fs else none
  | .holds _ => none

/-- Lines 53-57 of `loadConfig`: the key of a truthy `atlascloud` entry. -/
def authEntryKey : Json → Val
  | .obj e => if isString (getProp e "type") "api" then getProp e "key" else none
  | .arr _ => none
  | .str s => some (.str s)
  | _ => none

/-- Lines 46-68 of `loadConfig`: the host auth file. -/
def loadAuth : FileState → Option Json
  | .missing => none
  | .garbled => none
  | .holds .null => none
  | .holds (.obj fs) =>
    match getProp fs "atlascloud" with
    | none => none
    | some atlasAuth =>
      if truthy (some atlasAuth) then
        match authEntryKey atlasAuth with
        | none => none
        | some key => if truthy (some key) then some key else none
      else none
  | .holds _ => none

/-- `loadConfig()`. -/
def loadConfig (w : World) : Loaded :=
  match loadLocal w.configFile with
  | some config => { config := config, isDefault := false }
  | none =>
    match loadAuth w.authFile with
    | some key =>
      { config := setOwn (DEFAULT_CONFIG w) "apiKey" key, isDefault := false }
    | none =>
      match w.env with
      | some envApiKey =>
        if envApiKey != "" then
          { config := setOwn (DEFAULT_CONFIG w) "apiKey" (.str envApiKey),
            isDefault := false }
        else { config := DEFAULT_CONFIG w, isDefault := true }
      | none => { config := DEFAULT_CONFIG w, isDefault := true }

/-- `getApiKey()`. -/
def getApiKey (w : World) : Val :=
  getProp (loadConfig w).config "apiKey"

/-- `saveConfig(config)`. -/
def saveConfig (config : JsObject) (w : World) : Outcome Unit :=
  match w.configWriteError with
  | some e => .threw e w
  | none => .ok () { w with configFile := .holds (.obj config) }

/-- `loadOpenCodeAuth()`. -/
def loadOpenCodeAuth (w : World) : Json :=
  match w.authFile with
  | .missing => .obj []
  | .garbled => .obj []
  | .holds v => v

/-- `saveOpenCodeAuth(auth)`. -/
def saveOpenCodeAuth (auth : JsObject) (w : World) : Outcome Unit :=
  match w.authWriteError with
  | some e => .threw e w
  | none => .ok () { w with authFile := .holds (.obj auth) }

/-- Keys `"0"`, `"1"`, ... paired with the elements, from index `i` on. -/
def indexed {α : Type} : Nat → List α → List (String × α)
  | _, [] => []
  | i, x :: xs => (toString i, x) :: indexed (i + 1) xs

/-- `Object.entries(v)`; it throws a `TypeError` on `null`. -/
def objectEntries : Json → Except JsError (List (String × Json))
  | .null => .error ⟨"TypeError", "Cannot convert undefined or null to object"⟩
  | .obj fs => .ok fs
  | .arr items => .ok (indexed 0 items)
  | .str s => .ok (indexed 0 (s.data.map (fun c => Json.str (String.mk [c]))))
  | _ => .ok []

/-- The test of line 121:
`typeof value === "object" && value !== null && value.type === "api"`. -/
def isApiEntry : Json → Bool
  | .obj e => isString (getProp e "type") "api"
  | _ => false

/-- The loop of lines 120-124 of `saveApiKey`. -/
def keepApiEntries : List (String × Json) → JsObject → JsObject
  | [], auth => auth
  | (key, value) :: rest, auth =>
    if isApiEntry value then keepApiEntries rest (setProp auth key value)
    else keepApiEntries rest auth

/-- The mutation `config.apiKey = apiKey` seen by the module: it reaches
`DEFAULT_CONFIG` when `config` is that object. -/
def assignApiKey (l : Loaded) (apiKey : String) (w : World) : World :=
  if l.isDefault then { w with defaultApiKey := some apiKey } else w

/-- The mutation `delete config.apiKey` seen by the module. -/
def dropApiKey (l : Loaded) (w : World) : World :=
  if l.isDefault then { w with defaultApiKey := none } else w

/-- `saveApiKey(apiKey)`. -/
def saveApiKey (apiKey : String) (w : World) : Outcome Unit :=
  let l := loadConfig w
  let config := setOwn l.config "apiKey" (.str apiKey)
  match saveConfig config (assignApiKey l apiKey w) with
  | .threw e w1 => .threw e w1
  | .ok _ w1 =>
    match objectEntries (loadOpenCodeAuth w1) with
    | .error e => .threw e w1
    | .ok entries =>
      let auth := keepApiEntries entries []
      let auth := setOwn auth "atlascloud"
        (.obj [("type", .str "api"), ("key", .str apiKey)])
      saveOpenCodeAuth auth w1

/-- Lines 146-156 of `clearApiKey`: the `try` block around the auth file; every
error in it is swallowed. -/
def clearAuth (w : World) : World :=
  match w.authFile with
  | .missing => w
  | .garbled => w
  | .holds .null => w
  | .holds (.obj fs) =>
    match w.authWriteError with
    | some _ => w
    | none => { w with authFile := .holds (.obj (deleteProp fs "atlascloud")) }
  | .holds v =>
    match w.authWriteError with
    | some _ => w
    | none => { w with authFile := .holds v }

/-- `clearApiKey()`. -/
def clearApiKey (w : World) : Outcome Unit :=
  let l := loadConfig w
  let config := deleteProp l.config "apiKey"
  match saveConfig config (dropApiKey l w) with
  | .threw e w1 => .threw e w1
  | .ok _ w1 => .ok () (clearAuth w1)

/-! ## `src/server/models.ts` -/

/-- Record type `AtlasCloudModel`. -/
structure AtlasCloudModel where
  id : String
  name : String
  context : Nat
  output : Nat
  deriving DecidableEq, Repr

/-- The constant `FALLBACK_MODELS`. -/
def FALLBACK_MODELS : List AtlasCloudModel :=
  [ ⟨"openai/gpt-4o", "GPT-4o", 128000, 16384⟩,
    ⟨"openai/gpt-4o-mini", "GPT-4o Mini", 128000, 16384⟩,
    ⟨"openai/gpt-4.1", "GPT-4.1", 128000, 16384⟩,
    ⟨"openai/gpt-4.1-mini", "GPT-4.1 Mini", 128000, 16384⟩,
    ⟨"openai/gpt-5", "GPT-5", 200000, 32768⟩,
    ⟨"openai/gpt-5-mini", "GPT-5 Mini", 128000, 16384⟩,
    ⟨"openai/o1", "O1", 200000, 100000⟩,
    ⟨"openai/o3", "O3", 200000, 100000⟩,
    ⟨"openai/o3-mini", "O3 Mini", 200000, 65536⟩,
    ⟨"anthropic/claude-sonnet-4.5-20250929", "Claude Sonnet 4.5", 200000, 16384⟩,
    ⟨"anthropic/claude-opus-4.5-20251101", "Claude Opus 4.5", 200000, 16384⟩,
    ⟨"anthropic/claude-haiku-4.5-20251001", "Claude Haiku 4.5", 200000, 8192⟩,
    ⟨"anthropic/claude-haiku-4.5-20251001-developer", "Claude Haiku 4.5 Developer",
      200000, 8192⟩,
    ⟨"anthropic/claude-3.7-sonnet-20250219", "Claude 3.7 Sonnet", 200000, 8192⟩,
    ⟨"google/gemini-2.5-flash", "Gemini 2.5 Flash", 1000000, 8192⟩,
    ⟨"google/gemini-2.5-flash-lite", "Gemini 2.5 Flash Lite", 1000000, 8192⟩,
    ⟨"google/gemini-2.5-pro", "Gemini 2.5 Pro", 2000000, 8192⟩,
    ⟨"google/gemini-3-flash-preview", "Gemini 3 Flash Preview", 2000000, 16384⟩,
    ⟨"google/gemini-3-pro-preview", "Gemini 3 Pro Preview", 2000000, 32768⟩,
    ⟨"deepseek-ai/DeepSeek-V3.1", "DeepSeek V3.1", 128000, 8192⟩,
    ⟨"deepseek-ai/deepseek-v3.2-speciale", "DeepSeek V3.2 Speciale", 128000, 8192⟩,
    ⟨"deepseek-ai/deepseek-v3.2", "DeepSeek V3.2", 128000, 8192⟩,
    ⟨"deepseek-ai/deepseek-r1-0528", "DeepSeek R1", 128000, 8192⟩,
    ⟨"xai/grok-4-0709", "Grok 4", 128000, 16384⟩ ]

/-- Whether the text starts with the pattern. -/
def startsWith : List Char → List Char → Bool
  | [], _ => true
  | _ :: _, [] => false
  | p :: ps, c :: cs => p == c && startsWith ps cs

/-- Whether the pattern occurs somewhere in the text. -/
def includesChars (pat : List Char) : List Char → Bool
  | [] => startsWith pat []
  | c :: cs => startsWith pat (c :: cs) || includesChars pat cs

/-- `s.includes(pat)`. -/
def includes (s pat : String) : Bool :=
  includesChars pat.data s.data

/-- `s.toLowerCase()`. -/
def toLowerCase (s : String) : String :=
  String.mk (s.data.map Char.toLower)

/-- `getModelContextLength(modelId)`. -/
def getModelContextLength (modelId : String) : Nat :=
  let id := toLowerCase modelId
  if includes id "claude" then 200000
  else if includes id "o1" || includes id "o3" || includes id "gpt-5" then 200000
  else if includes id "gpt-4" then 128000
  else if includes id "gpt-3.5" then 16385
  else if includes id "gemini-3" then 2000000
  else if includes id "gemini-2.5" then 1000000
  else if includes id "gemini" then 128000
  else if includes id "deepseek" then 128000
  else if includes id "grok" then 128000
  else if includes id "llama-3.1-405b" || includes id "llama-3.1-70b" then 128000
  else if includes id "llama" then 8192
  else if includes id "mistral-large" || includes id "mixtral" then 32768
  else if includes id "mistral" then 8192
  else if includes id "qwen3" then 128000
  else if includes id "qwen" then 32768
  else 128000

/-- `getModelOutputTokens(modelId)`. -/
def getModelOutputTokens (modelId : String) : Nat :=
  let id := toLowerCase modelId
  if includes id "o1" || includes id "o3" then 100000
  else if includes id "deepseek-r1" || includes id "thinking" then 65536
  else if includes id "gpt-5" && !includes id "mini" && !includes id "nano" then 32768
  else if includes id "gemini-3-pro" then 32768
  else if includes id "gpt-4o" || includes id "gpt-4.1" || includes id "gpt-5" then 16384
  else if includes id "claude-sonnet-4" || includes id "claude-opus-4" then 16384
  else if includes id "gemini-3" then 16384
  else if includes id "grok-4" then 16384
  else if includes id "claude" then 8192
  else if includes id "gemini" then 8192
  else if includes id "deepseek" then 8192
  else if includes id "gpt" then 8192
  else if includes id "qwen" then 8192
  else 8192

/-- `s.split("-")` on the characters of `s`. -/
def splitHyphen : List Char → List (List Char)
  | [] => [[]]
  | c :: cs =>
    if c = '-' then [] :: splitHyphen cs
    else
      match splitHyphen cs with
      | [] => [[c]]
      | part :: parts => (c :: part) :: parts

/-- The class `\d` of a regular expression. -/
def isDigit (c : Char) : Bool :=
  '0' ≤ c && c ≤ '9'

/-- The class `\s` of a regular expression. -/
def isSpace (c : Char) : Bool :=
  let n := c.toNat
  n = 0x20 || (0x09 ≤ n && n ≤ 0x0D) || n = 0xA0 || n = 0x1680
    || (0x2000 ≤ n && n ≤ 0x200A) || n = 0x2028 || n = 0x2029 || n = 0x202F
    || n = 0x205F || n = 0x3000 || n = 0xFEFF

/-- The callback given to `map` in `formatModelName`. -/
def capitalizePart : List Char → List Char
  | [] => []
  | c :: cs => if isDigit c then c :: cs else c.toUpper :: cs

/-- `parts.join(" ")`. -/
def joinSpace : List (List Char) → List Char
  | [] => []
  | [part] => part
  | part :: rest => part ++ ' ' :: joinSpace rest

/-- `s.replace(/\s+(\d)/g, "-$1")`: `pending` is the run of white space read
and not yet written, most recent first. -/
def dashBeforeDigit : List Char → List Char → List Char
  | pending, [] => pending.reverse
  | pending, c :: cs =>
    if isSpace c then dashBeforeDigit (c :: pending) cs
    else if isDigit c && !pending.isEmpty then '-' :: c :: dashBeforeDigit [] cs
    else pending.reverse ++ c :: dashBeforeDigit [] cs

/-- `formatModelName(modelId)`. -/
def formatModelName (modelId : String) : String :=
  String.mk (dashBeforeDigit [] (joinSpace ((splitHyphen modelId.data).map capitalizePart)))

/-- What one `fetch` of the list endpoint does: it rejects, or it resolves to a
response with its `ok` flag and its body as `response.json()` reads it
(`none` when the body is not JSON). -/
inductive FetchOutcome where
  | throws
  | response (ok : Bool) (body : Option Json)

/-- The list endpoint: the outcome of the request numbered `n` that sends `key`. -/
abbrev Net := Nat → Json → FetchOutcome

/-- The state after one more request has been sent. -/
def countRequest (w : World) : World :=
  { w with requests := w.requests + 1 }

/-- The callback given to `map` in `fetchModels`; `none` when it throws, which
it does when `model.id` is not a string (`formatModelName` calls `split` on it)
or `model` is `null`. -/
def toModel : Json → Option AtlasCloudModel
  | .obj fs =>
    match getProp fs "id" with
    | some (.str id) =>
      some { id := id, name := formatModelName id,
             context := getModelContextLength id, output := getModelOutputTokens id }
    | _ => none
  | _ => none

/-- `data.data.map(...)`; `none` when the callback throws on some entry. -/
def mapModels : List Json → Option (List AtlasCloudModel)
  | [] => some []
  | model :: rest =>
    match toModel model with
    | none => none
    | some m =>
      match mapModels rest with
      | none => none
      | some ms => some (m :: ms)

/-- Lines 166-177 of `fetchModels`, given the parsed body; every throw ends in
the `catch` that returns the fallback. -/
def modelsOfBody : Json → List AtlasCloudModel
  | .null => FALLBACK_MODELS
  | .obj fs =>
    match getProp fs "data" with
    | some (.arr items) =>
      match mapModels items with
      | some models => models
      | none => FALLBACK_MODELS
    | _ => FALLBACK_MODELS
  | _ => FALLBACK_MODELS

/-- The expression `apiKey || getApiKey()`. -/
def keyOrStored (apiKey : Option String) (w : World) : Val :=
  match apiKey with
  | some k => if k != "" then some (.str k) else getApiKey w
  | none => getApiKey w

/-- `fetchModels(apiKey)`. -/
def fetchModels (net : Net) (apiKey : Option String) (w : World) :
    List AtlasCloudModel × World :=
  match keyOrStored apiKey w with
  | none => (FALLBACK_MODELS, w)
  | some key =>
    if !truthy (some key) then (FALLBACK_MODELS, w)
    else
      let w1 := countRequest w
      match net w.requests key with
      | .throws => (FALLBACK_MODELS, w1)
      | .response false _ => (FALLBACK_MODELS, w1)
      | .response true none => (FALLBACK_MODELS, w1)
      | .response true (some data) => (modelsOfBody data, w1)

/-- `validateApiKey(apiKey)`. -/
def validateApiKey (net : Net) (apiKey : String) (w : World) : Bool × World :=
  let w1 := countRequest w
  match net w.requests (.str apiKey) with
  | .throws => (false, w1)
  | .response ok _ => (ok, w1)

/-! ## `src/index.ts` -/

/-- Record type `CommandResult`. -/
structure CommandResult where
  handled : Bool
  response : Option String
  error : Option String
  deriving DecidableEq, Repr

/-- The masked key of line 80:
`key.substring(0, 8) + "..." + key.substring(key.length - 4)`. -/
def maskedKey (key : String) : String :=
  String.mk (key.data.take 8) ++ "..." ++ String.mk (key.data.drop (key.data.length - 4))

/-- The response of line 84. -/
def connectedResponse (key : String) (count : Nat) : String :=
  "✅ **Atlas Cloud Connected!**\n\n- Key: " ++ "\x60" ++ maskedKey key ++ "\x60"
    ++ "\n- Models Available: " ++ toString count
    ++ "\n\n**Restart OpenCode** to load the models."

/-- `handleConnectCommand(args)`. -/
def handleConnectCommand (net : Net) (args : List String) (w : World) :
    Outcome CommandResult :=
  match args.head? with
  | none =>
    .ok { handled := true, response := none,
          error := some "Usage: /connect atlascloud <your_api_key>" } w
  | some key =>
    if key = "" then
      .ok { handled := true, response := none,
            error := some "Usage: /connect atlascloud <your_api_key>" } w
    else
      match validateApiKey net key w with
      | (false, w1) =>
        .ok { handled := true, response := none,
              error := some ("❌ **Invalid API Key**\n\nThe API key could not be validated. "
                ++ "Please check your key and try again.") } w1
      | (true, w1) =>
        match saveApiKey key w1 with
        | .ok _ w2 =>
          match fetchModels net (some key) w2 with
          | (models, w3) =>
            .ok { handled := true,
                  response := some (connectedResponse key models.length),
                  error := none } w3
        | .threw e w2 =>
          match clearApiKey w2 with
          | .ok _ w3 =>
            .ok { handled := true, response := none,
                  error := some ("❌ **Connection Failed**: " ++ e.render) } w3
          | .threw e2 w3 => .threw e2 w3

/-! ## Input conditions and sample states -/

/-- The own config file yields no key: it is missing, unreadable or not JSON, or
its parsed value has no truthy `apiKey`. -/
def KeylessLocal (f : FileState) : Prop :=
  f = .missing ∨ f = .garbled ∨ ∃ v, f = .holds v ∧ truthy (propOf v "apiKey") = false

/-- The parsed auth file `a` has an `atlascloud` entry that carries the key `k`:
an object with `type` equal to `"api"` and a truthy `key` `k`, or a non-empty
bare string `k`. -/
def UsableEntry (a : Json) (k : Json) : Prop :=
  (∃ e, propOf a "atlascloud" = some (.obj e) ∧ getProp e "type" = some (.str "api") ∧
      getProp e "key" = some k ∧ truthy (some k) = true) ∨
    (∃ s, propOf a "atlascloud" = some (.str s) ∧ s ≠ "" ∧ k = .str s)

/-- The host auth file yields no key: it is missing, unreadable or not JSON, or
its parsed value has no usable `atlascloud` entry. -/
def KeylessAuth (f : FileState) : Prop :=
  f = .missing ∨ f = .garbled ∨ ∃ a, f = .holds a ∧ ∀ k, ¬ UsableEntry a k

/-- An auth file with a legacy entry of another provider and a structured
`atlascloud` entry. -/
def sampleAuthApi : Json :=
  .obj [("openai", .str "sk-legacy"),
        ("atlascloud", .obj [("type", .str "api"), ("key", .str "host-key")])]

/-- An auth file whose `atlascloud` entry is an object of another type. -/
def sampleAuthOauth : Json :=
  .obj [("atlascloud", .obj [("type", .str "oauth"), ("key", .str "token")])]

/-- A state in which all three sources hold a key and `DEFAULT_CONFIG` carries
one from an earlier call. -/
def worldLocalKey : World :=
  { World.boot (.holds (.obj [("version", .str "1.0.0"), ("apiKey", .str "local-key")]))
      (.holds sampleAuthApi) (some "env-key") with defaultApiKey := some "stale" }

/-- A state in which the own config file has an empty key, the auth file a
structured entry and the environment a key. -/
def worldAuthKey : World :=
  { World.boot (.holds (.obj [("version", .str "1.0.0"), ("apiKey", .str "")]))
      (.holds sampleAuthApi) (some "env-key") with defaultApiKey := some "stale" }

/-- A fresh process whose files yield no key and whose environment has one. -/
def worldEnvKey : World :=
  World.boot .garbled (.holds sampleAuthOauth) (some "env-key")

/-- The state `saveApiKey` has reached once its `saveConfig` call has returned. -/
def afterSaveConfig (apiKey : String) (w : World) : World :=
  { assignApiKey (loadConfig w) apiKey w with
    configFile := .holds (.obj (setOwn (loadConfig w).config "apiKey" (.str apiKey))) }

/-- The object `saveApiKey` writes to the auth file, given the entries read. -/
def savedAuth (apiKey : String) (entries : List (String × Json)) : JsObject :=
  setOwn (keepApiEntries entries []) "atlascloud"
    (.obj [("type", .str "api"), ("key", .str apiKey)])

/-- The state in which `saveApiKey` returns, given the entries it read. -/
def afterSaveApiKey (apiKey : String) (entries : List (String × Json)) (w : World) : World :=
  { afterSaveConfig apiKey w with authFile := .holds (.obj (savedAuth apiKey entries)) }

/-- The state `clearApiKey` has reached once its `saveConfig` call has returned. -/
def afterClearConfig (w : World) : World :=
  { dropApiKey (loadConfig w) w with
    configFile := .holds (.obj (deleteProp (loadConfig w).config "apiKey")) }

/-- A fresh process with neither key file and no environment key. -/
def worldEmpty : World :=
  World.boot .missing .missing none

/-- A fresh process whose auth file holds only a legacy entry of another
provider. -/
def worldLegacyAuth : World :=
  World.boot .missing (.holds (.obj [("openai", .str "sk-legacy")])) none

/-- A list endpoint that accepts every key and lists two models. -/
def netAccepting : Net := fun _ _ =>
  .response true (some (.obj [("object", .str "list"),
    ("data", .arr [.obj [("id", .str "openai/gpt-4o")],
                   .obj [("id", .str "xai/grok-4-0709")]])]))

/-- A fresh process whose auth file holds a structured entry and cannot be
written. -/
def worldReadOnlyAuth : World :=
  { World.boot .missing (.holds sampleAuthApi) none with
    authWriteError := some ⟨"Error", "EACCES: permission denied"⟩ }

/-- The state reached from `worldReadOnlyAuth` by a failed connect. -/
def worldReadOnlyAuthAfter : World :=
  { worldReadOnlyAuth with
    configFile := .holds (.obj [("version", .str "1.0.0")]), requests := 1 }

/-- A fresh process whose auth file holds a legacy string entry, an OAuth entry
and a structured API entry of three other providers. -/
def worldMixedAuth : World :=
  World.boot .missing
    (.holds (.obj [("openai", .str "sk-legacy"),
      ("anthropic", .obj [("type", .str "oauth"), ("refresh", .str "r1"),
        ("access", .str "a1")]),
      ("groq", .obj [("type", .str "api"), ("key", .str "gsk-1")])])) none

/-- A list endpoint whose second entry has a number as `id`. -/
def netBadEntry : Net := fun _ _ =>
  .response true (some (.obj [("object", .str "list"),
    ("data", .arr [.obj [("id", .str "openai/gpt-4o")], .obj [("id", .num 7)]])]))

/-- The element built from a model id by the callback of `fetchModels`. -/
def modelOfId (id : String) : AtlasCloudModel :=
  { id := id, name := formatModelName id,
    context := getModelContextLength id, output := getModelOutputTokens id }

/-! ## The display name as the specification describes it -/

/-- Whether a part starts with a digit. -/
def startsWithDigit : List Char → Bool
  | [] => false
  | c :: _ => isDigit c

/-- A part as the specification shows it: unchanged when it starts with a
digit, its first character upper-cased otherwise. -/
def shownPart (part : List Char) : List Char :=
  if startsWithDigit part then part
  else
    match part with
    | [] => []
    | c :: cs => c.toUpper :: cs

/-- The parts after the first, each with what joins it to the part before: a
hyphen when it starts with a digit, one space otherwise. -/
def shownTail : List (List Char) → List Char
  | [] => []
  | part :: rest =>
    (if startsWithDigit part then '-' :: part else ' ' :: shownPart part) ++ shownTail rest

/-- The display name the specification describes, from the parts of the id. -/
def shownName : List (List Char) → List Char
  | [] => []
  | part :: rest => shownPart part ++ shownTail rest

/-! ## `modelsToOpenCodeFormat` -/

/-- The value `{ name, limit: { context, output } }` stored for one model. -/
def openCodeModel (model : AtlasCloudModel) : Json :=
  .obj [("name", .str model.name),
        ("limit", .obj [("context", .num model.context), ("output", .num model.output)])]

/-- The loop of `modelsToOpenCodeFormat`, from the object built so far:
`result[model.id] = { ... }` for each model in turn. -/
def addModels : List AtlasCloudModel → JsObject → JsObject
  | [], result => result
  | model :: rest, result => addModels rest (setProp result model.id (openCodeModel model))

/-- `modelsToOpenCodeFormat(models)`. -/
def modelsToOpenCodeFormat (models : List AtlasCloudModel) : JsObject :=
  addModels models []

/-- `Object.keys(o)`, up to order. -/
def objectKeys (o : JsObject) : List String :=
  o.map (fun p => p.1)

/-- The last element of the list with the given id. -/
def lastWithId (id : String) : List AtlasCloudModel → Option AtlasCloudModel
  | [] => none
  | model :: rest =>
    match lastWithId id rest with
    | some m => some m
    | none => if model.id = id then some model else none

/-! ## The command handlers of `src/index.ts` -/

/-- `s.trim()` on the characters of `s`. -/
def trim (s : List Char) : List Char :=
  ((s.dropWhile isSpace).reverse.dropWhile isSpace).reverse

/-- `s.split(/\s+/)` on the characters of `s`; `inRun` tells that the
character before was white space, so that a run of white space separates
once. -/
def splitSpaces : Bool → List Char → List (List Char)
  | _, [] => [[]]
  | inRun, c :: cs =>
    if isSpace c then
      if inRun then splitSpaces true cs else [] :: splitSpaces true cs
    else
      match splitSpaces false cs with
      | [] => [[c]]
      | token :: tokens => (c :: token) :: tokens

/-- `command.trim().split(/\s+/)`. -/
def commandParts (command : String) : List String :=
  (splitSpaces false (trim command.data)).map String.mk

/-- The response of line 101. -/
def notConnectedStatus : String :=
  "ℹ️ **Atlas Cloud Status**\n\nNot connected. Use \x60/connect "
    ++ "atlascloud <api_key>\x60 to connect."

/-- The response of line 112, with `masked = apiKey.substring(0, 8) + "..."`. -/
def statusResponse (apiKey : String) (count : Nat) : String :=
  "✅ **Atlas Cloud Status**\n\n- Connected: Yes\n- Key: " ++ "\x60"
    ++ String.mk (apiKey.data.take 8) ++ "..." ++ "\x60" ++ "\n- Models: " ++ toString count

/-- The error of line 117. -/
def invalidKeyStatus : String :=
  "⚠️ **Atlas Cloud Status**\n\nAPI key is configured but invalid. Use "
    ++ "\x60/connect atlascloud <api_key>\x60 to update."

/-- The help text of line 168. -/
def helpText : String :=
  "**Atlas Cloud Commands**\n\n- \x60/atlascloud connect <api_key>\x60 - "
    ++ "Connect with API key\n- \x60/atlascloud status\x60 - Check connection "
    ++ "status\n- \x60/atlascloud disconnect\x60 - Remove API key\n\nOr use: "
    ++ "\x60/connect atlascloud <api_key>\x60"

/-- `handleStatusCommand()`. The key comes from `getApiKey()`, which may hand
out any truthy value of the config file; for one that is not a string,
`fetchModels(apiKey)` sends that value, as `fetchModels()` would, and
`apiKey.substring` then throws into the `catch`. -/
def handleStatusCommand (net : Net) (w : World) : Outcome CommandResult :=
  match getApiKey w with
  | none => .ok { handled := true, response := some notConnectedStatus, error := none } w
  | some key =>
    if !truthy (some key) then
      .ok { handled := true, response := some notConnectedStatus, error := none } w
    else
      match key with
      | .str apiKey =>
        match validateApiKey net apiKey w with
        | (true, w1) =>
          match fetchModels net (some apiKey) w1 with
          | (models, w2) =>
            .ok { handled := true, response := some (statusResponse apiKey models.length),
                  error := none } w2
        | (false, w1) =>
          .ok { handled := true, response := none, error := some invalidKeyStatus } w1
      | _ =>
        match net w.requests key with
        | .response true _ =>
          .ok { handled := true, response := none,
                error := some ("❌ **Status Check Failed**: "
                  ++ "apiKey.substring is not a function") }
            (fetchModels net none (countRequest w)).2
        | _ =>
          .ok { handled := true, response := none, error := some invalidKeyStatus }
            (countRequest w)

/-- `handleDisconnectCommand()`. -/
def handleDisconnectCommand (w : World) : Outcome CommandResult :=
  if !truthy (getApiKey w) then
    .ok { handled := true, response := some "ℹ️ Atlas Cloud is not connected.",
          error := none } w
  else
    match clearApiKey w with
    | .ok _ w1 =>
      .ok { handled := true,
            response := some ("✅ **Disconnected from Atlas Cloud**\n\nAPI key removed. "
              ++ "Restart OpenCode for changes to take effect."),
            error := none } w1
    | .threw e w1 => .threw e w1

/-- The variable `cmd` of `handleCommand`: `parts[0]?.toLowerCase()`. -/
def cmdOf (command : String) : Option String :=
  (commandParts command)[0]?.map toLowerCase

/-- The variable `subCmd` of `handleCommand`: `parts[1]?.toLowerCase()`. -/
def subCmdOf (command : String) : Option String :=
  (commandParts command)[1]?.map toLowerCase

/-- The variable `args` of `handleCommand`: `parts.slice(2)`. -/
def argsOf (command : String) : List String :=
  (commandParts command).drop 2

/-- `handleCommand(command)`. -/
def handleCommand (net : Net) (command : String) (w : World) : Outcome CommandResult :=
  let cmd := cmdOf command
  let subCmd := subCmdOf command
  let args := argsOf command
  if cmd = some "connect" ∧ subCmd = some "atlascloud" then
    handleConnectCommand net args w
  else if cmd = some "atlascloud" then
    if subCmd = some "connect" then handleConnectCommand net args w
    else if subCmd = some "status" then handleStatusCommand net w
    else if subCmd = some "disconnect" then handleDisconnectCommand w
    else .ok { handled := true, response := some helpText, error := none } w
  else .ok { handled := false, response := none, error := none } w


/-! ## The plugin and its config hook -/

/-- Lines 196-201 of `AtlasCloudPlugin`: `fetchModels(loadConfig().apiKey)`. An
`apiKey` that is not a string is the very value `getApiKey()` returns inside
`fetchModels`, so passing it selects the same key as passing nothing. -/
def pluginModels (net : Net) (w : World) : List AtlasCloudModel × World :=
  match getProp (loadConfig w).config "apiKey" with
  | some (.str apiKey) => fetchModels net (some apiKey) w
  | _ => fetchModels net none w

/-- `AtlasCloudPlugin(ctx)` up to its `return`: the object `modelsObject` that
the hooks close over, and the state after the start-up request. -/
def AtlasCloudPlugin (net : Net) (w : World) : JsObject × World :=
  match pluginModels net w with
  | (models, w1) => (modelsToOpenCodeFormat models, w1)

/-- The object `providerConfig` of the config hook. -/
def providerConfig (modelsObject : JsObject) : Json :=
  .obj [("id", .str "atlascloud"), ("name", .str "Atlas Cloud"),
        ("npm", .str "@ai-sdk/openai-compatible"),
        ("options", .obj [("baseURL", .str "https://api.atlascloud.ai/v1")]),
        ("models", .obj modelsObject)]

/-- The `config` hook (lines 208-232) on the host's config object: the object
after the hook, or the error the hook throws. `cfg.provider || {}` keeps a
truthy `provider`; assigning `atlascloud` on it throws when it is a primitive
(module code is strict). An array would take `atlascloud` as a named property,
which is not part of its JSON value; the host's `Config` type, a record of
providers, excludes both cases. -/
def configHook (modelsObject : JsObject) (config : JsObject) : Except JsError JsObject :=
  match getProp config "provider" with
  | some (.obj provider) =>
    .ok (setOwn config "provider"
      (.obj (setOwn provider "atlascloud" (providerConfig modelsObject))))
  | some (.arr items) => .ok (setOwn config "provider" (.arr items))
  | some (.str s) =>
    if s != "" then
      .error ⟨"TypeError",
        "Cannot create property \x27atlascloud\x27 on string \x27" ++ s ++ "\x27"⟩
    else .ok (setOwn config "provider" (.obj [("atlascloud", providerConfig modelsObject)]))
  | some (.num n) =>
    if n != 0 then
      .error ⟨"TypeError",
        "Cannot create property \x27atlascloud\x27 on number \x27" ++ toString n ++ "\x27"⟩
    else .ok (setOwn config "provider" (.obj [("atlascloud", providerConfig modelsObject)]))
  | some (.bool true) =>
    .error ⟨"TypeError", "Cannot create property \x27atlascloud\x27 on boolean \x27true\x27"⟩
  | _ => .ok (setOwn config "provider" (.obj [("atlascloud", providerConfig modelsObject)]))

/-- A host config with a model setting and one provider. -/
def sampleHostConfig : JsObject :=
  [("model", .str "openai/gpt-4o"),
   ("provider", .obj [("openai", .obj [("npm", .str "@ai-sdk/openai")])])]

/-! ## `bin/setup.cjs` -/

namespace Setup

/-- The constant `PLUGIN_NAME`. -/
def PLUGIN_NAME : String := "opencode-atlascloud-plugin"

/-- What `registerPlugin` reads and writes: `opencode.json` (here `garbled` is
a readable file that is not JSON), its backup `opencode.json.bak`, the plugin
directory `path.resolve(__dirname, "..")`, whether `dist/index.js` exists in
it, and the error a write into the config directory throws, if any (one
error for both writes of `saveConfig`: a backup written before the write of
`opencode.json` throws is not modelled). Creating the config directory and
logging leave this state as it is. -/
structure SetupWorld where
  configFile : FileState
  backupFile : FileState
  pluginPath : String
  built : Bool
  writeError : Option JsError

/-- Outcome of `registerPlugin`: it returns `true`, or it throws. -/
inductive SetupOutcome where
  | ok (s : SetupWorld)
  | threw (e : JsError) (s : SetupWorld)

/-- `loadConfig()` of `setup.cjs`. -/
def loadConfig (s : SetupWorld) : Json :=
  match s.configFile with
  | .missing => .obj []
  | .garbled => .obj []
  | .holds v => v

/-- `saveConfig(config)` of `setup.cjs`: back up an existing file, then write. -/
def saveConfig (config : Json) (s : SetupWorld) : SetupOutcome :=
  match s.writeError with
  | some e => .threw e s
  | none =>
    match s.configFile with
    | .missing => .ok { s with configFile := .holds config }
    | existing => .ok { s with backupFile := existing, configFile := .holds config }

/-- The callback given to `some` in `registerPlugin`. -/
def isRegistered (pluginPath : String) : Json → Bool
  | .str p => p == PLUGIN_NAME || p == pluginPath || includes p PLUGIN_NAME
  | _ => false

/-- Lines 68-82 of `registerPlugin`, for a config object with fields `fs`
whose `plugin` array has the elements `items`. -/
def addIfAbsent (fs : JsObject) (items : List Json) (s : SetupWorld) : SetupOutcome :=
  if items.any (isRegistered s.pluginPath) then .ok s
  else saveConfig (.obj (setOwn fs "plugin" (.arr (items ++ [.str s.pluginPath])))) s

/-- `registerPlugin()`. The script is not in strict mode: on a primitive
config the assignment `config.plugin = []` does nothing and `config.plugin.some`
throws; on an array it sets a named property, which `JSON.stringify` leaves
out. -/
def registerPlugin (s : SetupWorld) : SetupOutcome :=
  let config := loadConfig s
  if !s.built then
    .threw ⟨"Error", "Plugin not built. Run \x27npm run build\x27 first. Expected: "
      ++ s.pluginPath ++ "/dist/index.js"⟩ s
  else
    match config with
    | .null =>
      .threw ⟨"TypeError", "Cannot read properties of null (reading \x27plugin\x27)"⟩ s
    | .obj fs =>
      match getProp fs "plugin" with
      | some (.arr items) => addIfAbsent fs items s
      | plugin =>
        if truthy plugin then
          .threw ⟨"TypeError", "config.plugin.some is not a function"⟩ s
        else addIfAbsent (setOwn fs "plugin" (.arr [])) [] s
    | .arr items => saveConfig (.arr items) s
    | _ =>
      .threw ⟨"TypeError", "Cannot read properties of undefined (reading \x27some\x27)"⟩ s

/-- A built plugin and an `opencode.json` with a theme and one other plugin. -/
def sampleSetup : SetupWorld :=
  { configFile := .holds (.obj [("theme", .str "dark"), ("plugin", .arr [.str "other-plugin"])]),
    backupFile := .missing, pluginPath := "/opt/atlas", built := true, writeError := none }

end Setup

/-- A fresh process with no config file, an auth file that holds the JSON
value `null`, and no environment key. -/
def worldNullAuth : World :=
  World.boot .missing (.holds .null) none

/-- The state reached from `worldNullAuth` by a failed connect. -/
def worldNullAuthAfter : World :=
  { worldNullAuth with
    configFile := .holds (.obj [("version", .str "1.0.0")]),
    defaultApiKey := some "sk-abcdefghijkl", requests := 1 }

/-- A fresh process with no config file and an auth file that holds only a
legacy entry of another provider and cannot be written. -/
def worldReadOnlyNoEntry : World :=
  { World.boot .missing (.holds (.obj [("openai", .str "sk-legacy")])) none with
    authWriteError := some ⟨"Error", "EACCES: permission denied"⟩ }

/-- The state reached from `worldReadOnlyNoEntry` by a failed connect. -/
def worldReadOnlyNoEntryAfter : World :=
  { worldReadOnlyNoEntry with
    configFile := .holds (.obj [("version", .str "1.0.0")]),
    defaultApiKey := some "sk-abcdefghijkl", requests := 1 }

/-! ## Property lists -/

theorem getProp_setOwn_same (o : JsObject) (k : String) (v : Json) :
    getProp (setOwn o k v) k = some v := by
  induction o with
  | nil => simp [setOwn, getProp]
  | cons p rest ih =>
    obtain ⟨k', v'⟩ := p
    by_cases h : k' = k
    · simp [setOwn, getProp, h]
    · simp [setOwn, getProp, h, ih]

theorem getProp_setOwn_other (o : JsObject) (k k2 : String) (v : Json) (hne : k ≠ k2) :
    getProp (setOwn o k v) k2 = getProp o k2 := by
  induction o with
  | nil => simp [setOwn, getProp, hne]
  | cons p rest ih =>
    obtain ⟨k', v'⟩ := p
    by_cases h : k' = k
    · subst h
      simp [setOwn, getProp, hne]
    · by_cases h2 : k' = k2
      · subst h2
        simp [setOwn, getProp, h]
      · simp [setOwn, getProp, h, h2, ih]

theorem getProp_deleteProp_same (o : JsObject) (k : String) :
    getProp (deleteProp o k) k = none := by
  induction o with
  | nil => simp [deleteProp, getProp]
  | cons p rest ih =>
    obtain ⟨k', v'⟩ := p
    by_cases h : k' = k
    · simpa [deleteProp, h] using ih
    · simpa [deleteProp, getProp, h] using ih

theorem getProp_deleteProp_other (o : JsObject) (k k2 : String) (hne : k ≠ k2) :
    getProp (deleteProp o k) k2 = getProp o k2 := by
  induction o with
  | nil => simp [deleteProp, getProp]
  | cons p rest ih =>
    obtain ⟨k', v'⟩ := p
    by_cases h : k' = k
    · subst h
      simpa [deleteProp, getProp, hne] using ih
    · by_cases h2 : k' = k2
      · subst h2
        simp [deleteProp, getProp, h]
      · simpa [deleteProp, getProp, h, h2] using ih

theorem setOwn_DEFAULT_CONFIG (w : World) (v : Json) :
    setOwn (DEFAULT_CONFIG w) "apiKey" v = [("version", .str "1.0.0"), ("apiKey", v)] := by
  unfold DEFAULT_CONFIG
  cases w.defaultApiKey <;> simp [setOwn]

theorem truthy_str (s : String) : truthy (some (.str s)) = true ↔ s ≠ "" := by
  simp [truthy]

theorem truthy_obj (e : JsObject) : truthy (some (.obj e)) = true := rfl

theorem truthy_arr (items : List Json) : truthy (some (.arr items)) = true := rfl

/-! ## Credential resolution -/

theorem loadLocal_holds_truthy (v : Json) (h : truthy (propOf v "apiKey") = true) :
    ∃ fs, v = .obj fs ∧ loadLocal (.holds v) = some fs := by
  cases v with
  | obj fs => exact ⟨fs, rfl, by simpa [loadLocal, propOf] using h⟩
  | null => simp [propOf, truthy] at h
  | bool b => simp [propOf, truthy] at h
  | num n => simp [propOf, truthy] at h
  | str s => simp [propOf, truthy] at h
  | arr items => simp [propOf, truthy] at h

theorem loadLocal_holds_falsy (v : Json) (h : truthy (propOf v "apiKey") = false) :
    loadLocal (.holds v) = none := by
  cases v with
  | obj fs => simpa [loadLocal, propOf] using h
  | null => rfl
  | bool b => rfl
  | num n => rfl
  | str s => rfl
  | arr items => rfl

theorem loadLocal_of_keyless (f : FileState)
    (h : f = .missing ∨ f = .garbled ∨
      ∃ v, f = .holds v ∧ truthy (propOf v "apiKey") = false) :
    loadLocal f = none := by
  rcases h with h | h | ⟨v, h, hv⟩
  · subst h; rfl
  · subst h; rfl
  · subst h; exact loadLocal_holds_falsy v hv

/-- C1: if the own config file parses to a value with a truthy `apiKey`,
`loadConfig()` returns that parsed value (a fresh object, not `DEFAULT_CONFIG`)
and `getApiKey()` is its `apiKey`, whatever the auth file, the environment
variable and the rest of the state are. -/
theorem loadConfig_local_key_first (w : World) (v : Json)
    (hfile : w.configFile = .holds v) (hkey : truthy (propOf v "apiKey") = true) :
    Json.obj (loadConfig w).config = v ∧ (loadConfig w).isDefault = false ∧
      getApiKey w = propOf v "apiKey" := by
  obtain ⟨fs, rfl, hl⟩ := loadLocal_holds_truthy v hkey
  simp [getApiKey, loadConfig, hfile, hl, propOf]

theorem loadConfig_local_key_first_witness :
    getApiKey worldLocalKey = some (.str "local-key") :=
  (loadConfig_local_key_first worldLocalKey
    (.obj [("version", .str "1.0.0"), ("apiKey", .str "local-key")]) rfl rfl).2.2

theorem isString_iff (v : Val) (s : String) :
    isString v s = true ↔ v = some (.str s) := by
  unfold isString
  split <;> simp_all

theorem loadAuth_of_usable (a k : Json) (h : UsableEntry a k) :
    loadAuth (.holds a) = some k := by
  rcases h with ⟨e, he, ht, hk, htr⟩ | ⟨s, hs, hne, rfl⟩
  · cases a with
    | obj fs =>
      have he2 : getProp fs "atlascloud" = some (.obj e) := he
      have hi : isString (getProp e "type") "api" = true := (isString_iff _ _).2 ht
      simp [loadAuth, he2, truthy_obj, authEntryKey, hi, hk, htr]
    | null => simp [propOf] at he
    | bool b => simp [propOf] at he
    | num n => simp [propOf] at he
    | str t => simp [propOf] at he
    | arr items => simp [propOf] at he
  · cases a with
    | obj fs =>
      have hs2 : getProp fs "atlascloud" = some (.str s) := hs
      simp [loadAuth, hs2, truthy, authEntryKey, hne]
    | null => simp [propOf] at hs
    | bool b => simp [propOf] at hs
    | num n => simp [propOf] at hs
    | str t => simp [propOf] at hs
    | arr items => simp [propOf] at hs

/-- C2: when the own config file yields no key and the parsed auth file has an
`atlascloud` entry that is an object of type `"api"` with a truthy key `k` or a
non-empty bare string `k`, `loadConfig()` returns the fresh object
`{version: "1.0.0", apiKey: k}`, whatever the environment variable is. -/
theorem loadConfig_auth_key_second (w : World) (a k : Json)
    (hlocal : KeylessLocal w.configFile) (hauth : w.authFile = .holds a)
    (hentry : UsableEntry a k) :
    loadConfig w =
      { config := [("version", .str "1.0.0"), ("apiKey", k)], isDefault := false } := by
  have h1 := loadLocal_of_keyless _ hlocal
  have h2 := loadAuth_of_usable a k hentry
  simp [loadConfig, h1, hauth, h2, setOwn_DEFAULT_CONFIG]

theorem loadConfig_auth_key_second_witness :
    loadConfig worldAuthKey =
      { config := [("version", .str "1.0.0"), ("apiKey", .str "host-key")],
        isDefault := false } :=
  loadConfig_auth_key_second worldAuthKey sampleAuthApi (.str "host-key")
    (Or.inr (Or.inr ⟨_, rfl, rfl⟩)) rfl
    (Or.inl ⟨[("type", .str "api"), ("key", .str "host-key")], rfl, rfl, rfl, rfl⟩)

theorem loadAuth_of_keyless (f : FileState) (h : KeylessAuth f) : loadAuth f = none := by
  rcases h with h | h | ⟨a, h, hno⟩
  · subst h; rfl
  · subst h; rfl
  · subst h
    cases a with
    | null => rfl
    | bool b => rfl
    | num n => rfl
    | str t => rfl
    | arr items => rfl
    | obj fs =>
      cases hg : getProp fs "atlascloud" with
      | none => simp [loadAuth, hg]
      | some x =>
        cases x with
        | null => simp [loadAuth, hg, truthy]
        | bool b => cases b <;> simp [loadAuth, hg, truthy, authEntryKey]
        | num n => simp [loadAuth, hg, truthy, authEntryKey]
        | arr items => simp [loadAuth, hg, truthy, authEntryKey]
        | str s =>
          by_cases hs : s = ""
          · simp [loadAuth, hg, truthy, hs]
          · exact absurd (Or.inr ⟨s, hg, hs, rfl⟩) (hno (.str s))
        | obj e =>
          by_cases ht : getProp e "type" = some (.str "api")
          · cases hk : getProp e "key" with
            | none =>
              simp [loadAuth, hg, truthy, authEntryKey, (isString_iff _ _).2 ht, hk]
            | some key =>
              by_cases htr : truthy (some key) = true
              · exact absurd (Or.inl ⟨e, hg, ht, hk, htr⟩) (hno key)
              · simp [loadAuth, hg, truthy_obj, authEntryKey, (isString_iff _ _).2 ht, hk, htr]
          · have hi : isString (getProp e "type") "api" = false := by
              cases hb : isString (getProp e "type") "api" with
              | false => rfl
              | true => exact absurd ((isString_iff _ _).1 hb) ht
            simp [loadAuth, hg, truthy, authEntryKey, hi]

/-- C3: in a process in which nothing has touched `DEFAULT_CONFIG` yet, when
neither file yields a key, `loadConfig()` (a total function: every throw inside
it is caught) returns `{version: "1.0.0", apiKey: e}` if the environment
variable is a non-empty string `e`, and otherwise `DEFAULT_CONFIG`, which is
`{version: "1.0.0"}`, so that `getApiKey()` is `undefined`. -/
theorem loadConfig_env_key_last (w : World) (hfresh : w.defaultApiKey = none)
    (hlocal : KeylessLocal w.configFile) (hauth : KeylessAuth w.authFile) :
    (∀ e, w.env = some e → e ≠ "" →
        loadConfig w =
          { config := [("version", .str "1.0.0"), ("apiKey", .str e)],
            isDefault := false }) ∧
      (w.env = none ∨ w.env = some "" →
        (loadConfig w).config = [("version", .str "1.0.0")] ∧ getApiKey w = none) := by
  have h1 := loadLocal_of_keyless _ hlocal
  have h2 := loadAuth_of_keyless _ hauth
  refine ⟨?_, ?_⟩
  · intro e he hne
    simp [loadConfig, h1, h2, he, hne, setOwn_DEFAULT_CONFIG]
  · intro he
    rcases he with he | he <;>
      simp [getApiKey, loadConfig, h1, h2, he, DEFAULT_CONFIG, hfresh, getProp]

theorem sampleAuthOauth_unusable (k : Json) : ¬ UsableEntry sampleAuthOauth k := by
  rintro (⟨e, he, ht, _⟩ | ⟨s, hs, _⟩)
  · simp [sampleAuthOauth, propOf, getProp] at he
    subst he
    simp [getProp] at ht
  · simp [sampleAuthOauth, propOf, getProp] at hs

theorem loadConfig_env_key_last_witness :
    loadConfig worldEnvKey =
        { config := [("version", .str "1.0.0"), ("apiKey", .str "env-key")],
          isDefault := false } ∧
      getApiKey (World.boot .missing (.holds sampleAuthOauth) none) = none :=
  ⟨(loadConfig_env_key_last worldEnvKey rfl (Or.inr (Or.inl rfl))
      (Or.inr (Or.inr ⟨_, rfl, sampleAuthOauth_unusable⟩))).1 "env-key" rfl (by decide),
    ((loadConfig_env_key_last (World.boot .missing (.holds sampleAuthOauth) none) rfl
      (Or.inl rfl) (Or.inr (Or.inr ⟨_, rfl, sampleAuthOauth_unusable⟩))).2 (Or.inl rfl)).2⟩

/-! ## Saving and clearing the key -/

theorem getApiKey_of_local (w : World) (fs : JsObject) (v : Json)
    (hfile : w.configFile = .holds (.obj fs)) (hget : getProp fs "apiKey" = some v)
    (htr : truthy (some v) = true) : getApiKey w = some v := by
  simp [getApiKey, loadConfig, loadLocal, hfile, hget, htr]

theorem assignApiKey_configWriteError (l : Loaded) (k : String) (w : World) :
    (assignApiKey l k w).configWriteError = w.configWriteError := by
  unfold assignApiKey; split <;> rfl

theorem assignApiKey_authWriteError (l : Loaded) (k : String) (w : World) :
    (assignApiKey l k w).authWriteError = w.authWriteError := by
  unfold assignApiKey; split <;> rfl

theorem assignApiKey_authFile (l : Loaded) (k : String) (w : World) :
    (assignApiKey l k w).authFile = w.authFile := by
  unfold assignApiKey; split <;> rfl

theorem assignApiKey_configFile (l : Loaded) (k : String) (w : World) :
    (assignApiKey l k w).configFile = w.configFile := by
  unfold assignApiKey; split <;> rfl

theorem dropApiKey_configWriteError (l : Loaded) (w : World) :
    (dropApiKey l w).configWriteError = w.configWriteError := by
  unfold dropApiKey; split <;> rfl

theorem dropApiKey_authWriteError (l : Loaded) (w : World) :
    (dropApiKey l w).authWriteError = w.authWriteError := by
  unfold dropApiKey; split <;> rfl

theorem dropApiKey_authFile (l : Loaded) (w : World) :
    (dropApiKey l w).authFile = w.authFile := by
  unfold dropApiKey; split <;> rfl

theorem dropApiKey_configFile (l : Loaded) (w : World) :
    (dropApiKey l w).configFile = w.configFile := by
  unfold dropApiKey; split <;> rfl

/-- The control flow of `saveApiKey`, spelled out on the initial state. -/
theorem saveApiKey_eq (apiKey : String) (w : World) :
    saveApiKey apiKey w =
      match w.configWriteError with
      | some e => .threw e (assignApiKey (loadConfig w) apiKey w)
      | none =>
        match objectEntries (loadOpenCodeAuth w) with
        | .error e => .threw e (afterSaveConfig apiKey w)
        | .ok entries =>
          match w.authWriteError with
          | some e => .threw e (afterSaveConfig apiKey w)
          | none =>
            .ok () { afterSaveConfig apiKey w with
                     authFile := .holds (.obj (savedAuth apiKey entries)) } := by
  have hl : loadOpenCodeAuth (afterSaveConfig apiKey w) = loadOpenCodeAuth w := by
    simp [loadOpenCodeAuth, afterSaveConfig, assignApiKey_authFile]
  have haw : (afterSaveConfig apiKey w).authWriteError = w.authWriteError := by
    simp [afterSaveConfig, assignApiKey_authWriteError]
  have hstep : saveConfig (setOwn (loadConfig w).config "apiKey" (.str apiKey))
      (assignApiKey (loadConfig w) apiKey w) =
        match w.configWriteError with
        | some e => .threw e (assignApiKey (loadConfig w) apiKey w)
        | none => .ok () (afterSaveConfig apiKey w) := by
    have hc := assignApiKey_configWriteError (loadConfig w) apiKey w
    unfold saveConfig
    split
    · rename_i e he
      rw [hc] at he
      simp [he]
    · rename_i he
      rw [hc] at he
      simp only [he]
      rfl
  unfold saveApiKey
  simp only [hstep]
  cases w.configWriteError with
  | some e => rfl
  | none =>
    simp only [hl]
    cases objectEntries (loadOpenCodeAuth w) with
    | error e => rfl
    | ok entries =>
      simp only [saveOpenCodeAuth, haw]
      cases w.authWriteError with
      | some e => rfl
      | none => rfl

/-- The control flow of `clearApiKey`, spelled out on the initial state. -/
theorem clearApiKey_eq (w : World) :
    clearApiKey w =
      match w.configWriteError with
      | some e => .threw e (dropApiKey (loadConfig w) w)
      | none => .ok () (clearAuth (afterClearConfig w)) := by
  have hstep : saveConfig (deleteProp (loadConfig w).config "apiKey")
      (dropApiKey (loadConfig w) w) =
        match w.configWriteError with
        | some e => .threw e (dropApiKey (loadConfig w) w)
        | none => .ok () (afterClearConfig w) := by
    have hc := dropApiKey_configWriteError (loadConfig w) w
    unfold saveConfig
    split
    · rename_i e he
      rw [hc] at he
      simp [he]
    · rename_i he
      rw [hc] at he
      simp only [he]
      rfl
  unfold clearApiKey
  simp only [hstep]
  cases w.configWriteError with
  | some e => rfl
  | none => rfl

theorem saveApiKey_ok_configFile (apiKey : String) (w w' : World)
    (h : saveApiKey apiKey w = .ok () w') :
    w'.configFile =
      .holds (.obj (setOwn (loadConfig w).config "apiKey" (.str apiKey))) := by
  rw [saveApiKey_eq] at h
  cases hcw : w.configWriteError with
  | some e => simp [hcw] at h
  | none =>
    cases hent : objectEntries (loadOpenCodeAuth w) with
    | error e => simp [hcw, hent] at h
    | ok entries =>
      cases haw : w.authWriteError with
      | some e => simp [hcw, hent, haw] at h
      | none =>
        simp only [hcw, hent, haw, Outcome.ok.injEq, true_and] at h
        subst h
        rfl

theorem saveApiKey_ok_authFile (apiKey : String) (w w' : World)
    (h : saveApiKey apiKey w = .ok () w') :
    ∃ entries, objectEntries (loadOpenCodeAuth w) = .ok entries ∧
      w'.authFile = .holds (.obj (savedAuth apiKey entries)) := by
  rw [saveApiKey_eq] at h
  cases hcw : w.configWriteError with
  | some e => simp [hcw] at h
  | none =>
    cases hent : objectEntries (loadOpenCodeAuth w) with
    | error e => simp [hcw, hent] at h
    | ok entries =>
      cases haw : w.authWriteError with
      | some e => simp [hcw, hent, haw] at h
      | none =>
        simp only [hcw, hent, haw, Outcome.ok.injEq, true_and] at h
        subst h
        exact ⟨entries, rfl, rfl⟩

/-- C4: for every non-empty string `k` and every prior state, once
`saveApiKey(k)` has returned, `getApiKey()` returns `k`. -/
theorem saveApiKey_then_getApiKey (k : String) (w w' : World) (hk : k ≠ "")
    (h : saveApiKey k w = .ok () w') : getApiKey w' = some (.str k) :=
  getApiKey_of_local w' _ _ (saveApiKey_ok_configFile k w w' h)
    (getProp_setOwn_same _ _ _) ((truthy_str k).2 hk)

theorem saveApiKey_then_getApiKey_witness :
    getApiKey
        { worldLocalKey with
          configFile :=
            .holds (.obj [("version", .str "1.0.0"), ("apiKey", .str "new-key")]),
          authFile :=
            .holds (.obj [("atlascloud",
              .obj [("type", .str "api"), ("key", .str "new-key")])]) } =
      some (.str "new-key") :=
  saveApiKey_then_getApiKey "new-key" worldLocalKey _ (by decide) rfl

/-- C5 (fails on the code): in a fresh process with neither key file and no
environment key, `saveApiKey("sk-live")` followed by `clearApiKey()` leaves both
files without the key, yet `getApiKey()` still returns `"sk-live"`:
`saveApiKey` wrote it onto the shared `DEFAULT_CONFIG` object, which
`loadConfig` hands out again once the files yield nothing. -/
theorem clearApiKey_keeps_key_in_memory :
    ∃ w1 w2, saveApiKey "sk-live" worldEmpty = .ok () w1 ∧ clearApiKey w1 = .ok () w2 ∧
      w2.configFile = .holds (.obj [("version", .str "1.0.0")]) ∧
      w2.authFile = .holds (.obj []) ∧
      getApiKey w2 = some (.str "sk-live") :=
  ⟨_, _, rfl, rfl, rfl, rfl, rfl⟩

/-! ## The connect command -/

theorem validateApiKey_eq (net : Net) (key : String) (w : World) :
    validateApiKey net key w =
      ((match net w.requests (.str key) with
        | .throws => false
        | .response ok _ => ok), countRequest w) := by
  unfold validateApiKey
  cases net w.requests (.str key) <;> rfl

theorem objectEntries_ok_of_ne_null (v : Json) (h : v ≠ .null) :
    ∃ entries, objectEntries v = .ok entries := by
  cases v with
  | null => exact absurd rfl h
  | bool b => exact ⟨_, rfl⟩
  | num n => exact ⟨_, rfl⟩
  | str s => exact ⟨_, rfl⟩
  | arr items => exact ⟨_, rfl⟩
  | obj fs => exact ⟨_, rfl⟩

theorem loadOpenCodeAuth_ne_null (w : World) (h : w.authFile ≠ .holds .null) :
    loadOpenCodeAuth w ≠ .null := by
  unfold loadOpenCodeAuth
  cases hf : w.authFile with
  | missing => simp
  | garbled => simp
  | holds v =>
    intro hv
    simp only at hv
    subst hv
    exact h hf

theorem fetchModels_files (net : Net) (apiKey : Option String) (w : World) :
    (fetchModels net apiKey w).2.configFile = w.configFile ∧
      (fetchModels net apiKey w).2.authFile = w.authFile := by
  unfold fetchModels
  split
  · exact ⟨rfl, rfl⟩
  · split
    · exact ⟨rfl, rfl⟩
    · split <;> exact ⟨rfl, rfl⟩

/-- The connect handler once the key has been validated. -/
theorem handleConnectCommand_validated (net : Net) (key : String) (rest : List String)
    (w : World) (body : Option Json) (hk : key ≠ "")
    (hvalid : net w.requests (.str key) = .response true body) :
    handleConnectCommand net (key :: rest) w =
      match saveApiKey key (countRequest w) with
      | .ok _ w2 =>
        .ok { handled := true,
              response := some (connectedResponse key (fetchModels net (some key) w2).1.length),
              error := none } (fetchModels net (some key) w2).2
      | .threw e w2 =>
        match clearApiKey w2 with
        | .ok _ w3 =>
          .ok { handled := true, response := none,
                error := some ("❌ **Connection Failed**: " ++ e.render) } w3
        | .threw e2 w3 => .threw e2 w3 := by
  unfold handleConnectCommand
  simp only [List.head?_cons, hk, if_false, validateApiKey_eq, hvalid]

/-- The connect handler when the list endpoint does not accept the key. -/
theorem handleConnectCommand_rejected (net : Net) (key : String) (rest : List String)
    (w : World) (hk : key ≠ "")
    (hbad : net w.requests (.str key) = .throws ∨
      ∃ body, net w.requests (.str key) = .response false body) :
    handleConnectCommand net (key :: rest) w =
      .ok { handled := true, response := none,
            error := some ("❌ **Invalid API Key**\n\nThe API key could not be validated. "
              ++ "Please check your key and try again.") } (countRequest w) := by
  unfold handleConnectCommand
  rcases hbad with h | ⟨body, h⟩ <;>
    simp only [List.head?_cons, hk, if_false, validateApiKey_eq, h]

theorem getProp_savedAuth (apiKey : String) (entries : List (String × Json)) :
    getProp (savedAuth apiKey entries) "atlascloud" =
      some (.obj [("type", .str "api"), ("key", .str apiKey)]) :=
  getProp_setOwn_same _ _ _

/-- C6 (as amended): for every non-empty key that the list endpoint accepts, in
every state in which both key files can be written and the auth file does not
hold the JSON value `null`, `handleConnectCommand([key])` returns
`handled = true` with no error and the response that reports the length of
the list `fetchModels(key)` returned, and afterwards the own config file has
`apiKey` equal to the key and the auth file has the `atlascloud` entry
`{type: "api", key: key}`. -/
theorem handleConnectCommand_persists_valid_key (net : Net) (w : World) (key : String)
    (body : Option Json) (hk : key ≠ "")
    (hvalid : net w.requests (.str key) = .response true body)
    (hcw : w.configWriteError = none) (haw : w.authWriteError = none)
    (hnull : w.authFile ≠ .holds .null) :
    ∃ w2 w3, saveApiKey key (validateApiKey net key w).2 = .ok () w2 ∧
      handleConnectCommand net [key] w =
        .ok { handled := true,
              response :=
                some (connectedResponse key (fetchModels net (some key) w2).1.length),
              error := none } w3 ∧
      (∃ config, w3.configFile = .holds (.obj config) ∧
        getProp config "apiKey" = some (.str key)) ∧
      (∃ auth, w3.authFile = .holds (.obj auth) ∧
        getProp auth "atlascloud" = some (.obj [("type", .str "api"), ("key", .str key)])) := by
  have hcw1 : (countRequest w).configWriteError = none := hcw
  have haw1 : (countRequest w).authWriteError = none := haw
  have hnull1 : (countRequest w).authFile ≠ .holds .null := hnull
  obtain ⟨entries, hent⟩ :=
    objectEntries_ok_of_ne_null _ (loadOpenCodeAuth_ne_null _ hnull1)
  have hsave : saveApiKey key (countRequest w) =
      .ok () (afterSaveApiKey key entries (countRequest w)) := by
    rw [saveApiKey_eq]
    simp only [hcw1, hent, haw1]
    rfl
  have hfiles := fetchModels_files net (some key)
    (afterSaveApiKey key entries (countRequest w))
  refine ⟨afterSaveApiKey key entries (countRequest w),
    (fetchModels net (some key) (afterSaveApiKey key entries (countRequest w))).2,
    ?_, ?_, ?_, ?_⟩
  · rw [validateApiKey_eq]
    exact hsave
  · rw [handleConnectCommand_validated net key [] w body hk hvalid]
    simp only [hsave]
  · exact ⟨_, hfiles.1, getProp_setOwn_same _ _ _⟩
  · exact ⟨_, hfiles.2, getProp_savedAuth key entries⟩

theorem handleConnectCommand_persists_valid_key_witness :
    ∃ w2 w3, saveApiKey "sk-abcdefghijkl" (validateApiKey netAccepting "sk-abcdefghijkl" worldLegacyAuth).2 = .ok () w2 ∧
      handleConnectCommand netAccepting ["sk-abcdefghijkl"] worldLegacyAuth =
        .ok { handled := true,
              response := some (connectedResponse "sk-abcdefghijkl"
                (fetchModels netAccepting (some "sk-abcdefghijkl") w2).1.length),
              error := none } w3 ∧
      (∃ config, w3.configFile = .holds (.obj config) ∧
        getProp config "apiKey" = some (.str "sk-abcdefghijkl")) ∧
      (∃ auth, w3.authFile = .holds (.obj auth) ∧
        getProp auth "atlascloud" =
          some (.obj [("type", .str "api"), ("key", .str "sk-abcdefghijkl")])) :=
  handleConnectCommand_persists_valid_key netAccepting worldLegacyAuth "sk-abcdefghijkl"
    _ (by decide) rfl rfl rfl (by simp [worldLegacyAuth, World.boot])

/-- C6 (as stated) fails: with a non-empty key that the list endpoint accepts
and an auth file that cannot be written, `handleConnectCommand([key])` returns
an error and no response; afterwards the own config file has no `apiKey` and
the auth file still has the entry it had before, not the new key. -/
theorem handleConnectCommand_valid_key_save_fails :
    (validateApiKey netAccepting "sk-abcdefghijkl" worldReadOnlyAuth).1 = true ∧
      handleConnectCommand netAccepting ["sk-abcdefghijkl"] worldReadOnlyAuth =
        .ok { handled := true, response := none,
              error := some "❌ **Connection Failed**: EACCES: permission denied" }
          worldReadOnlyAuthAfter ∧
      worldReadOnlyAuthAfter.configFile = .holds (.obj [("version", .str "1.0.0")]) ∧
      worldReadOnlyAuthAfter.authFile = .holds sampleAuthApi :=
  ⟨rfl, rfl, rfl, rfl⟩

theorem clearAuth_configFile (w : World) : (clearAuth w).configFile = w.configFile := by
  unfold clearAuth
  split
  · rfl
  · rfl
  · rfl
  · split <;> rfl
  · split <;> rfl

theorem clearAuth_authFile (w : World) :
    (clearAuth w).authFile = w.authFile ∨
      ∃ fs, w.authFile = .holds (.obj fs) ∧
        (clearAuth w).authFile = .holds (.obj (deleteProp fs "atlascloud")) := by
  cases hf : w.authFile with
  | missing => exact Or.inl (by simp [clearAuth, hf])
  | garbled => exact Or.inl (by simp [clearAuth, hf])
  | holds v =>
    cases haw : w.authWriteError with
    | some e => cases v <;> exact Or.inl (by simp [clearAuth, hf, haw])
    | none =>
      cases v with
      | obj fs => exact Or.inr ⟨fs, rfl, by simp [clearAuth, hf, haw]⟩
      | null => exact Or.inl (by simp [clearAuth, hf])
      | bool b => exact Or.inl (by simp [clearAuth, hf, haw])
      | num n => exact Or.inl (by simp [clearAuth, hf, haw])
      | str t => exact Or.inl (by simp [clearAuth, hf, haw])
      | arr items => exact Or.inl (by simp [clearAuth, hf, haw])

theorem saveApiKey_threw (apiKey : String) (w w2 : World) (e : JsError)
    (h : saveApiKey apiKey w = .threw e w2) :
    (w.configWriteError = some e ∧ w2 = assignApiKey (loadConfig w) apiKey w) ∨
      (w.configWriteError = none ∧ w2 = afterSaveConfig apiKey w) := by
  rw [saveApiKey_eq] at h
  cases hcw : w.configWriteError with
  | some e1 =>
    simp only [hcw, Outcome.threw.injEq] at h
    exact Or.inl ⟨by rw [h.1], h.2.symm⟩
  | none =>
    refine Or.inr ⟨rfl, ?_⟩
    cases hent : objectEntries (loadOpenCodeAuth w) with
    | error e1 =>
      simp only [hcw, hent, Outcome.threw.injEq] at h
      exact h.2.symm
    | ok entries =>
      cases haw : w.authWriteError with
      | some e1 =>
        simp only [hcw, hent, haw, Outcome.threw.injEq] at h
        exact h.2.symm
      | none => simp [hcw, hent, haw] at h

theorem afterSaveConfig_configWriteError (apiKey : String) (w : World) :
    (afterSaveConfig apiKey w).configWriteError = w.configWriteError :=
  assignApiKey_configWriteError _ _ _

theorem afterSaveConfig_authFile (apiKey : String) (w : World) :
    (afterSaveConfig apiKey w).authFile = w.authFile :=
  assignApiKey_authFile _ _ _

theorem afterClearConfig_authFile (w : World) :
    (afterClearConfig w).authFile = w.authFile :=
  dropApiKey_authFile _ _

/-- What a connect that fails after validation leaves behind, when
`clearApiKey` returns. -/
theorem clearApiKey_after_failed_save (key : String) (w w2 w3 : World) (e : JsError)
    (hsave : saveApiKey key w = .threw e w2) (hclear : clearApiKey w2 = .ok () w3) :
    (∃ config, w3.configFile = .holds (.obj config) ∧ getProp config "apiKey" = none) ∧
      (w3.authFile = w.authFile ∨
        ∃ fs, w.authFile = .holds (.obj fs) ∧
          w3.authFile = .holds (.obj (deleteProp fs "atlascloud"))) := by
  rw [clearApiKey_eq] at hclear
  rcases saveApiKey_threw key w w2 e hsave with ⟨hcw, hw2⟩ | ⟨hcw, hw2⟩
  · have h2 : w2.configWriteError = some e := by
      rw [hw2, assignApiKey_configWriteError]
      exact hcw
    simp [h2] at hclear
  · have h2 : w2.configWriteError = none := by
      rw [hw2, afterSaveConfig_configWriteError]
      exact hcw
    simp only [h2, Outcome.ok.injEq, true_and] at hclear
    have hauth : (afterClearConfig w2).authFile = w.authFile := by
      rw [afterClearConfig_authFile, hw2, afterSaveConfig_authFile]
    subst hclear
    refine ⟨⟨_, ?_, getProp_deleteProp_same (loadConfig w2).config "apiKey"⟩, ?_⟩
    · rw [clearAuth_configFile]
      rfl
    · have h3 := clearAuth_authFile (afterClearConfig w2)
      rw [hauth] at h3
      exact h3

/-- What an error result of `handleConnectCommand` leaves in the two key
files (the key kept on `DEFAULT_CONFIG` is not covered here). With no
key argument, an empty one, or a key for which the request throws or answers
with a non-success status, both files (and `DEFAULT_CONFIG`) are exactly as
before. Otherwise `saveApiKey` threw after validation, `clearApiKey()` ran and
returned, the error is the Connection Failed string built from the thrown
error, the own config file holds an object without `apiKey`, and the auth file
is as before the call or as before with its `atlascloud` entry deleted. -/
theorem handleConnectCommand_error_leaves_files (net : Net) (args : List String)
    (w w' : World) (r : CommandResult)
    (h : handleConnectCommand net args w = .ok r w') (herr : r.error ≠ none) :
    r.handled = true ∧
      ((args.head? = none ∨ args.head? = some "" ∨
          ∃ key, args.head? = some key ∧
            (net w.requests (.str key) = .throws ∨
              ∃ body, net w.requests (.str key) = .response false body)) →
        w'.configFile = w.configFile ∧ w'.authFile = w.authFile ∧
          w'.defaultApiKey = w.defaultApiKey) ∧
      (∀ key body, args.head? = some key → key ≠ "" →
          net w.requests (.str key) = .response true body →
        (∃ e w2, saveApiKey key (countRequest w) = .threw e w2 ∧
            clearApiKey w2 = .ok () w' ∧
            r.error = some ("❌ **Connection Failed**: " ++ e.render)) ∧
          (∃ config, w'.configFile = .holds (.obj config) ∧
            getProp config "apiKey" = none) ∧
          (w'.authFile = w.authFile ∨
            ∃ fs, w.authFile = .holds (.obj fs) ∧
              w'.authFile = .holds (.obj (deleteProp fs "atlascloud")))) := by
  cases args with
  | nil =>
    simp only [handleConnectCommand, List.head?_nil, Outcome.ok.injEq] at h
    obtain ⟨hr, hw⟩ := h
    subst hr hw
    exact ⟨rfl, fun _ => ⟨rfl, rfl, rfl⟩, fun key body hh => by simp at hh⟩
  | cons key rest =>
    by_cases hk : key = ""
    · subst hk
      simp only [handleConnectCommand, List.head?_cons, if_true, Outcome.ok.injEq] at h
      obtain ⟨hr, hw⟩ := h
      subst hr hw
      refine ⟨rfl, fun _ => ⟨rfl, rfl, rfl⟩, fun key body hh hne => ?_⟩
      simp only [List.head?_cons, Option.some.injEq] at hh
      exact absurd hh.symm hne
    · have hbad : (net w.requests (.str key) = .throws ∨
          ∃ body, net w.requests (.str key) = .response false body) →
          r.handled = true ∧ w' = countRequest w := by
        intro hb
        rw [handleConnectCommand_rejected net key rest w hk hb] at h
        simp only [Outcome.ok.injEq] at h
        obtain ⟨hr, hw⟩ := h
        subst hr hw
        exact ⟨rfl, rfl⟩
      cases hnet : net w.requests (.str key) with
      | throws =>
        obtain ⟨hh, hw⟩ := hbad (Or.inl hnet)
        subst hw
        refine ⟨hh, fun _ => ⟨rfl, rfl, rfl⟩, fun key2 body hh2 _ hv => ?_⟩
        simp only [List.head?_cons, Option.some.injEq] at hh2
        subst hh2
        rw [hnet] at hv
        cases hv
      | response ok body =>
        cases ok with
        | false =>
          obtain ⟨hh, hw⟩ := hbad (Or.inr ⟨body, hnet⟩)
          subst hw
          refine ⟨hh, fun _ => ⟨rfl, rfl, rfl⟩, fun key2 body2 hh2 _ hv => ?_⟩
          simp only [List.head?_cons, Option.some.injEq] at hh2
          subst hh2
          rw [hnet] at hv
          cases hv
        | true =>
          rw [handleConnectCommand_validated net key rest w body hk hnet] at h
          cases hsave : saveApiKey key (countRequest w) with
          | ok u w2 =>
            simp only [hsave, Outcome.ok.injEq] at h
            obtain ⟨hr, _⟩ := h
            subst hr
            exact absurd rfl herr
          | threw e w2 =>
            cases hclear : clearApiKey w2 with
            | threw e2 w3 => simp [hsave, hclear] at h
            | ok u w3 =>
              simp only [hsave, hclear, Outcome.ok.injEq] at h
              obtain ⟨hr, hw⟩ := h
              subst hr hw
              have hfiles := clearApiKey_after_failed_save key (countRequest w) w2 w3 e
                hsave hclear
              refine ⟨rfl, ?_, fun key2 body2 hh2 _ _ => ?_⟩
              · rintro (hn | hn | ⟨key2, hh2, hb⟩)
                · simp at hn
                · simp only [List.head?_cons, Option.some.injEq] at hn
                  exact absurd hn hk
                · simp only [List.head?_cons, Option.some.injEq] at hh2
                  subst hh2
                  rw [hnet] at hb
                  rcases hb with hb | ⟨b, hb⟩
                  · cases hb
                  · cases hb
              · simp only [List.head?_cons, Option.some.injEq] at hh2
                subst hh2
                exact ⟨⟨e, w2, hsave, hclear, rfl⟩, hfiles⟩

theorem handleConnectCommand_error_leaves_files_witness :
    (∃ config, worldReadOnlyAuthAfter.configFile = .holds (.obj config) ∧
        getProp config "apiKey" = none) ∧
      (worldReadOnlyAuthAfter.authFile = worldReadOnlyAuth.authFile ∨
        ∃ fs, worldReadOnlyAuth.authFile = .holds (.obj fs) ∧
          worldReadOnlyAuthAfter.authFile = .holds (.obj (deleteProp fs "atlascloud"))) :=
  ((handleConnectCommand_error_leaves_files netAccepting ["sk-abcdefghijkl"]
      worldReadOnlyAuth worldReadOnlyAuthAfter
      { handled := true, response := none,
        error := some "❌ **Connection Failed**: EACCES: permission denied" }
      rfl (by simp)).2.2 "sk-abcdefghijkl" _ rfl (by decide) rfl).2

/-- C7 (fails on the code): in a fresh process with no key anywhere, a connect
whose key the list endpoint accepts but whose save throws (the auth file holds
`null`, or it cannot be written) returns the Connection Failed error after
`clearApiKey()` has run. Both key files are then without the key, yet
`getApiKey()`, which was `undefined` before the call, returns the attempted
key: `saveApiKey` wrote it onto the shared `DEFAULT_CONFIG` object and
`clearApiKey` cleans only the files. -/
theorem handleConnectCommand_failure_keeps_key :
    (getApiKey worldNullAuth = none ∧
      handleConnectCommand netAccepting ["sk-abcdefghijkl"] worldNullAuth =
        .ok { handled := true, response := none,
              error := some ("❌ **Connection Failed**: "
                ++ "Cannot convert undefined or null to object") }
          worldNullAuthAfter ∧
      worldNullAuthAfter.configFile = .holds (.obj [("version", .str "1.0.0")]) ∧
      worldNullAuthAfter.authFile = .holds .null ∧
      getApiKey worldNullAuthAfter = some (.str "sk-abcdefghijkl")) ∧
    (getApiKey worldReadOnlyNoEntry = none ∧
      handleConnectCommand netAccepting ["sk-abcdefghijkl"] worldReadOnlyNoEntry =
        .ok { handled := true, response := none,
              error := some "❌ **Connection Failed**: EACCES: permission denied" }
          worldReadOnlyNoEntryAfter ∧
      worldReadOnlyNoEntryAfter.configFile = .holds (.obj [("version", .str "1.0.0")]) ∧
      worldReadOnlyNoEntryAfter.authFile = worldReadOnlyNoEntry.authFile ∧
      getApiKey worldReadOnlyNoEntryAfter = some (.str "sk-abcdefghijkl")) :=
  ⟨⟨rfl, rfl, rfl, rfl, rfl⟩, ⟨rfl, rfl, rfl, rfl, rfl⟩⟩

/-- C8 (fails on the code): `saveApiKey` keeps only the entries of the auth
file that are objects with `type` equal to `"api"`. An auth file with a legacy
string entry `openai`, an OAuth entry `anthropic` and an API entry `groq` holds,
after `saveApiKey("sk-new")`, only `groq` and `atlascloud`: the other two
entries are neither kept nor converted. -/
theorem saveApiKey_drops_other_entries :
    ∃ w', saveApiKey "sk-new" worldMixedAuth = .ok () w' ∧
      w'.authFile =
        .holds (.obj [("groq", .obj [("type", .str "api"), ("key", .str "gsk-1")]),
          ("atlascloud", .obj [("type", .str "api"), ("key", .str "sk-new")])]) ∧
      propOf (.obj [("groq", .obj [("type", .str "api"), ("key", .str "gsk-1")]),
          ("atlascloud", .obj [("type", .str "api"), ("key", .str "sk-new")])])
        "openai" = none :=
  ⟨_, rfl, rfl, rfl⟩

/-! ## The model catalog -/

theorem toModel_of_id (entry : Json) (id : String)
    (h : propOf entry "id" = some (.str id)) : toModel entry = some (modelOfId id) := by
  cases entry with
  | obj fs =>
    have h2 : getProp fs "id" = some (.str id) := h
    simp [toModel, h2, modelOfId]
  | null => simp [propOf] at h
  | bool b => simp [propOf] at h
  | num n => simp [propOf] at h
  | str t => simp [propOf] at h
  | arr items => simp [propOf] at h

theorem toModel_of_no_id (entry : Json) (h : ∀ id, propOf entry "id" ≠ some (.str id)) :
    toModel entry = none := by
  cases entry with
  | obj fs =>
    have h2 : ∀ id, getProp fs "id" ≠ some (.str id) := h
    cases hg : getProp fs "id" with
    | none => simp [toModel, hg]
    | some v =>
      cases v with
      | str id => exact absurd hg (h2 id)
      | null => simp [toModel, hg]
      | bool b => simp [toModel, hg]
      | num n => simp [toModel, hg]
      | arr xs => simp [toModel, hg]
      | obj e => simp [toModel, hg]
  | null => rfl
  | bool b => rfl
  | num n => rfl
  | str t => rfl
  | arr items => rfl

theorem mapModels_of_ids (items : List Json) (ids : List String)
    (h : items.map (fun e => propOf e "id") = ids.map (fun id => some (.str id))) :
    mapModels items = some (ids.map modelOfId) := by
  induction items generalizing ids with
  | nil =>
    cases ids with
    | nil => rfl
    | cons id ids => simp at h
  | cons entry rest ih =>
    cases ids with
    | nil => simp at h
    | cons id ids =>
      simp only [List.map_cons, List.cons.injEq] at h
      simp [mapModels, toModel_of_id entry id h.1, ih ids h.2]

theorem mapModels_of_bad_entry (items : List Json) (entry : Json) (hmem : entry ∈ items)
    (h : ∀ id, propOf entry "id" ≠ some (.str id)) : mapModels items = none := by
  induction items with
  | nil => simp at hmem
  | cons first rest ih =>
    rcases List.mem_cons.1 hmem with hm | hm
    · subst hm
      simp [mapModels, toModel_of_no_id entry h]
    · unfold mapModels
      cases toModel first with
      | none => rfl
      | some m => simp [ih hm]

theorem modelsOfBody_not_array (data : Json)
    (h : ∀ items, propOf data "data" ≠ some (.arr items)) :
    modelsOfBody data = FALLBACK_MODELS := by
  cases data with
  | obj fs =>
    have h2 : ∀ items, getProp fs "data" ≠ some (.arr items) := h
    cases hg : getProp fs "data" with
    | none => simp [modelsOfBody, hg]
    | some v =>
      cases v with
      | arr items => exact absurd hg (h2 items)
      | null => simp [modelsOfBody, hg]
      | bool b => simp [modelsOfBody, hg]
      | num n => simp [modelsOfBody, hg]
      | str t => simp [modelsOfBody, hg]
      | obj e => simp [modelsOfBody, hg]
  | null => rfl
  | bool b => rfl
  | num n => rfl
  | str t => rfl
  | arr items => rfl

theorem modelsOfBody_array (data : Json) (items : List Json)
    (h : propOf data "data" = some (.arr items)) :
    modelsOfBody data =
      match mapModels items with
      | some models => models
      | none => FALLBACK_MODELS := by
  cases data with
  | obj fs =>
    have h2 : getProp fs "data" = some (.arr items) := h
    simp [modelsOfBody, h2]
  | null => simp [propOf] at h
  | bool b => simp [propOf] at h
  | num n => simp [propOf] at h
  | str t => simp [propOf] at h
  | arr xs => simp [propOf] at h

theorem keyOrStored_none (apiKey : Option String) (w : World)
    (h : (apiKey = none ∨ apiKey = some "") ∧ getApiKey w = none) :
    keyOrStored apiKey w = none := by
  obtain ⟨ha | ha, hg⟩ := h <;> subst ha <;> simp [keyOrStored, hg]

/-- The result of `fetchModels` once a key `key` has been chosen. -/
theorem fetchModels_of_key (net : Net) (apiKey : Option String) (w : World) (key : Json)
    (hkey : keyOrStored apiKey w = some key) :
    (fetchModels net apiKey w).1 =
      if truthy (some key) then
        match net w.requests key with
        | .throws => FALLBACK_MODELS
        | .response false _ => FALLBACK_MODELS
        | .response true none => FALLBACK_MODELS
        | .response true (some data) => modelsOfBody data
      else FALLBACK_MODELS := by
  unfold fetchModels
  simp only [hkey]
  cases truthy (some key) with
  | false => rfl
  | true =>
    simp only [Bool.not_true, if_true]
    cases net w.requests key with
    | throws => rfl
    | response ok body =>
      cases ok with
      | false => rfl
      | true =>
        cases body with
        | none => rfl
        | some data => rfl

/-- C9: `fetchModels(apiKey)` is total and returns exactly `FALLBACK_MODELS`,
a list of 24 entries, when no key is available (the argument is absent or empty
and `getApiKey()` is `undefined`), when the request throws, when the response
is not a success, when its body is not JSON, when the `data` field of the body
is missing or not an array, and when some entry of `data` has no string `id`. -/
theorem fetchModels_fallback (net : Net) (apiKey : Option String) (w : World)
    (h : ((apiKey = none ∨ apiKey = some "") ∧ getApiKey w = none) ∨
      ∃ key, keyOrStored apiKey w = some key ∧
        (net w.requests key = .throws ∨
          (∃ body, net w.requests key = .response false body) ∨
          net w.requests key = .response true none ∨
          ∃ data, net w.requests key = .response true (some data) ∧
            ((∀ items, propOf data "data" ≠ some (.arr items)) ∨
              ∃ items entry, propOf data "data" = some (.arr items) ∧ entry ∈ items ∧
                ∀ id, propOf entry "id" ≠ some (.str id)))) :
    (fetchModels net apiKey w).1 = FALLBACK_MODELS ∧ FALLBACK_MODELS.length = 24 := by
  refine ⟨?_, rfl⟩
  rcases h with h | ⟨key, hkey, h⟩
  · simp [fetchModels, keyOrStored_none apiKey w h]
  · rw [fetchModels_of_key net apiKey w key hkey]
    split
    · rcases h with h | ⟨body, h⟩ | h | ⟨data, h, hd⟩
      · simp [h]
      · simp [h]
      · simp [h]
      · simp only [h]
        rcases hd with hd | ⟨items, entry, hd, hmem, hid⟩
        · exact modelsOfBody_not_array data hd
        · rw [modelsOfBody_array data items hd, mapModels_of_bad_entry items entry hmem hid]
    · rfl

theorem fetchModels_fallback_witness :
    (fetchModels netBadEntry (some "sk-abcdefghijkl") worldEmpty).1 = FALLBACK_MODELS ∧
      FALLBACK_MODELS.length = 24 :=
  fetchModels_fallback netBadEntry (some "sk-abcdefghijkl") worldEmpty
    (Or.inr ⟨.str "sk-abcdefghijkl", rfl, Or.inr (Or.inr (Or.inr ⟨_, rfl, Or.inr
      ⟨[.obj [("id", .str "openai/gpt-4o")], .obj [("id", .num 7)]], .obj [("id", .num 7)],
        rfl, by simp, by simp [propOf, getProp]⟩⟩))⟩)

/-- C10: when a key is available, the response is a success and its body has
an array `data` whose entries have the string ids `ids` (in this order),
`fetchModels` returns the list whose i-th element is
`{id, name: formatModelName(id), context: getModelContextLength(id),
output: getModelOutputTokens(id)}` for the i-th id: same length, same order,
each element a function of its own id; an empty `data` gives the empty list. -/
theorem fetchModels_maps_entries (net : Net) (apiKey : Option String) (w : World)
    (key data : Json) (items : List Json) (ids : List String)
    (hkey : keyOrStored apiKey w = some key) (htr : truthy (some key) = true)
    (hnet : net w.requests key = .response true (some data))
    (hdata : propOf data "data" = some (.arr items))
    (hids : items.map (fun e => propOf e "id") = ids.map (fun id => some (.str id))) :
    (fetchModels net apiKey w).1 =
        ids.map (fun id =>
          { id := id, name := formatModelName id,
            context := getModelContextLength id, output := getModelOutputTokens id }) ∧
      (fetchModels net apiKey w).1.length = items.length ∧
      (items = [] → (fetchModels net apiKey w).1 = []) := by
  have hres : (fetchModels net apiKey w).1 = ids.map modelOfId := by
    rw [fetchModels_of_key net apiKey w key hkey]
    simp only [htr, if_true, hnet]
    rw [modelsOfBody_array data items hdata, mapModels_of_ids items ids hids]
  have hlen : items.length = ids.length := by
    have := congrArg List.length hids
    simpa using this
  refine ⟨hres, ?_, ?_⟩
  · rw [hres, List.length_map, hlen]
  · intro hnil
    subst hnil
    have : ids = [] := List.length_eq_zero.1 hlen.symm
    rw [hres, this]
    rfl

theorem fetchModels_maps_entries_witness :
    (fetchModels netAccepting none worldAuthKey).1 =
      [ { id := "openai/gpt-4o", name := formatModelName "openai/gpt-4o",
          context := getModelContextLength "openai/gpt-4o",
          output := getModelOutputTokens "openai/gpt-4o" },
        { id := "xai/grok-4-0709", name := formatModelName "xai/grok-4-0709",
          context := getModelContextLength "xai/grok-4-0709",
          output := getModelOutputTokens "xai/grok-4-0709" } ] :=
  (fetchModels_maps_entries netAccepting none worldAuthKey (.str "host-key") _
    [.obj [("id", .str "openai/gpt-4o")], .obj [("id", .str "xai/grok-4-0709")]]
    ["openai/gpt-4o", "xai/grok-4-0709"] rfl rfl rfl rfl rfl).1

/-! ## Display names -/

theorem capitalizePart_eq_shownPart (part : List Char) :
    capitalizePart part = shownPart part := by
  cases part with
  | nil => rfl
  | cons c cs =>
    by_cases h : isDigit c = true <;> simp [capitalizePart, shownPart, startsWithDigit, h]

theorem toUpper_cases (c : Char) :
    c.toUpper = c ∨ (65 ≤ c.toUpper.toNat ∧ c.toUpper.toNat ≤ 90) := by
  by_cases h : 97 ≤ c.toNat ∧ c.toNat ≤ 122
  · right
    have hc : c = Char.ofNat c.toNat := (Char.ofNat_toNat c).symm
    obtain ⟨h1, h2⟩ := h
    generalize c.toNat = n at hc h1 h2
    subst hc
    interval_cases n <;> decide
  · left
    unfold Char.toUpper
    simp only [ge_iff_le]
    rw [if_neg]
    simpa using h


theorem isSpace_toUpper (c : Char) (h : isSpace c = false) : isSpace c.toUpper = false := by
  rcases toUpper_cases c with hc | ⟨h1, h2⟩
  · rw [hc]; exact h
  · unfold isSpace
    generalize c.toUpper.toNat = n at h1 h2
    simp only []
    interval_cases n <;> decide

theorem isDigit_toUpper (c : Char) (h : isDigit c = false) : isDigit c.toUpper = false := by
  rcases toUpper_cases c with hc | ⟨h1, h2⟩
  · rw [hc]; exact h
  · have hc : c.toUpper = Char.ofNat c.toUpper.toNat := (Char.ofNat_toNat _).symm
    generalize c.toUpper.toNat = n at hc h1 h2
    rw [hc]
    interval_cases n <;> decide

theorem dashBeforeDigit_append (p rest : List Char) (hp : ∀ c ∈ p, isSpace c = false) :
    dashBeforeDigit [] (p ++ rest) = p ++ dashBeforeDigit [] rest := by
  induction p with
  | nil => rfl
  | cons c cs ih =>
    have hc : isSpace c = false := hp c (List.mem_cons_self _ _)
    have ih2 := ih (fun d hd => hp d (List.mem_cons_of_mem _ hd))
    simp [dashBeforeDigit, hc, ih2]

theorem dashBeforeDigit_space (c : Char) (rest : List Char) (hc : isSpace c = false) :
    dashBeforeDigit [] (' ' :: c :: rest) =
      (if isDigit c then '-' else ' ') :: c :: dashBeforeDigit [] rest := by
  have hs : isSpace ' ' = true := by decide
  by_cases hd : isDigit c = true
  · simp [dashBeforeDigit, hs, hc, hd]
  · simp [dashBeforeDigit, hs, hc, hd]

theorem dashBeforeDigit_space_cons (c : Char) (rest : List Char) (hc : isSpace c = false) :
    dashBeforeDigit [] (' ' :: c :: rest) =
      (if isDigit c then '-' else ' ') :: dashBeforeDigit [] (c :: rest) := by
  have h1 := dashBeforeDigit_append [c] rest (by simpa using hc)
  rw [dashBeforeDigit_space c rest hc]
  simp only [List.singleton_append] at h1
  rw [h1]

theorem joinSpace_cons (x : List Char) (xs : List (List Char)) :
    ∃ t, joinSpace (x :: xs) = x ++ t := by
  cases xs with
  | nil => exact ⟨[], by simp [joinSpace]⟩
  | cons y ys => exact ⟨' ' :: joinSpace (y :: ys), rfl⟩

theorem shownPart_head (c : Char) (cs : List Char) (hc : isSpace c = false) :
    ∃ d, shownPart (c :: cs) = d :: cs ∧ isSpace d = false ∧
      isDigit d = startsWithDigit (c :: cs) := by
  by_cases hd : isDigit c = true
  · exact ⟨c, by simp [shownPart, startsWithDigit, hd], hc, by simp [startsWithDigit]⟩
  · have hd2 : isDigit c = false := by simpa using hd
    exact ⟨c.toUpper, by simp [shownPart, startsWithDigit, hd2], isSpace_toUpper c hc,
      by simp [startsWithDigit, hd2, isDigit_toUpper c hd2]⟩

theorem shownPart_noSpace (part : List Char) (h : ∀ c ∈ part, isSpace c = false) :
    ∀ c ∈ shownPart part, isSpace c = false := by
  cases part with
  | nil => simp [shownPart, startsWithDigit]
  | cons c cs =>
    obtain ⟨d, hd, hs, _⟩ := shownPart_head c cs (h c (List.mem_cons_self _ _))
    rw [hd]
    intro x hx
    rcases List.mem_cons.1 hx with hx | hx
    · rw [hx]; exact hs
    · exact h x (List.mem_cons_of_mem _ hx)

theorem shownPart_of_digit (part : List Char) (h : startsWithDigit part = true) :
    shownPart part = part := by
  simp [shownPart, h]

theorem dashBeforeDigit_joinSpace (parts : List (List Char))
    (h : ∀ part ∈ parts, part ≠ [] ∧ ∀ c ∈ part, isSpace c = false) :
    dashBeforeDigit [] (joinSpace (parts.map capitalizePart)) = shownName parts := by
  induction parts with
  | nil => rfl
  | cons p rest ih =>
    have hp := (h p (List.mem_cons_self _ _)).2
    have hrest := fun q hq => h q (List.mem_cons_of_mem _ hq)
    cases rest with
    | nil =>
      have := dashBeforeDigit_append (shownPart p) [] (shownPart_noSpace p hp)
      simpa [joinSpace, shownName, shownTail, capitalizePart_eq_shownPart, dashBeforeDigit]
        using this
    | cons q rest2 =>
      have ih2 := ih hrest
      obtain ⟨hq1, hq2⟩ := h q (by simp)
      cases q with
      | nil => exact absurd rfl hq1
      | cons c cs =>
        obtain ⟨d, hd, hds, hdd⟩ := shownPart_head c cs (hq2 c (List.mem_cons_self _ _))
        have hcap : capitalizePart (c :: cs) = d :: cs := by
          rw [capitalizePart_eq_shownPart, hd]
        simp only [List.map_cons, hcap] at ih2 ⊢
        obtain ⟨t, ht⟩ := joinSpace_cons (d :: cs) (rest2.map capitalizePart)
        have hj : joinSpace (capitalizePart p :: (d :: cs) :: rest2.map capitalizePart) =
            shownPart p ++ ' ' :: d :: (cs ++ t) := by
          rw [← capitalizePart_eq_shownPart p]
          show capitalizePart p ++ ' ' :: joinSpace ((d :: cs) :: _) = _
          rw [ht]
          rfl
        rw [hj, dashBeforeDigit_append _ _ (shownPart_noSpace p hp),
          dashBeforeDigit_space_cons d _ hds]
        rw [ht] at ih2
        have hcons : d :: (cs ++ t) = d :: cs ++ t := rfl
        rw [hcons, ih2, hdd]
        by_cases hdig : startsWithDigit (c :: cs) = true
        · simp [shownName, shownTail, hdig, shownPart_of_digit _ hdig]
        · simp [shownName, shownTail, hdig]

theorem splitHyphen_ne_nil (l : List Char) : splitHyphen l ≠ [] := by
  cases l with
  | nil => simp [splitHyphen]
  | cons c cs =>
    unfold splitHyphen
    split
    · simp
    · split <;> simp

theorem mem_of_mem_splitHyphen (l : List Char) :
    ∀ part ∈ splitHyphen l, ∀ c ∈ part, c ∈ l := by
  induction l with
  | nil => simp [splitHyphen]
  | cons x xs ih =>
    intro part hpart c hc
    unfold splitHyphen at hpart
    split at hpart
    · rcases List.mem_cons.1 hpart with h | h
      · subst h; simp at hc
      · exact List.mem_cons_of_mem _ (ih part h c hc)
    · split at hpart
      · simp only [List.mem_singleton] at hpart
        subst hpart
        have hcx : c = x := by simpa using hc
        rw [hcx]
        exact List.mem_cons_self _ _
      · rename_i p ps hps
        rcases List.mem_cons.1 hpart with h | h
        · subst h
          rcases List.mem_cons.1 hc with h2 | h2
          · rw [h2]; exact List.mem_cons_self _ _
          · exact List.mem_cons_of_mem _ (ih p (by rw [hps]; exact List.mem_cons_self _ _) c h2)
        · exact List.mem_cons_of_mem _
            (ih part (by rw [hps]; exact List.mem_cons_of_mem _ h) c hc)

theorem shownPart_length (part : List Char) : (shownPart part).length = part.length := by
  cases part with
  | nil => simp [shownPart, startsWithDigit]
  | cons c cs => by_cases h : isDigit c = true <;> simp [shownPart, startsWithDigit, h]

theorem shownTail_length_cons (part : List Char) (rest : List (List Char)) :
    (shownTail (part :: rest)).length = (shownName (part :: rest)).length + 1 := by
  by_cases h : startsWithDigit part = true
  · simp [shownTail, shownName, h, shownPart_of_digit part h]
  · simp [shownTail, shownName, h]

theorem shownName_splitHyphen_length (l : List Char) :
    (shownName (splitHyphen l)).length = l.length := by
  induction l with
  | nil => simp [splitHyphen, shownName, shownTail, shownPart, startsWithDigit]
  | cons x xs ih =>
    cases hs : splitHyphen xs with
    | nil => exact absurd hs (splitHyphen_ne_nil xs)
    | cons p ps =>
      rw [hs] at ih
      by_cases hx : x = '-'
      · have : splitHyphen (x :: xs) = [] :: p :: ps := by simp [splitHyphen, hx, hs]
        rw [this]
        have h2 := shownTail_length_cons p ps
        simp only [shownName, List.length_append, List.length_cons] at h2 ih ⊢
        simp [shownPart, startsWithDigit]
        omega
      · have : splitHyphen (x :: xs) = (x :: p) :: ps := by simp [splitHyphen, hx, hs]
        rw [this]
        have h1 := shownPart_length (x :: p)
        have h2 := shownPart_length p
        simp only [shownName, List.length_append, List.length_cons] at ih h1 ⊢
        omega

/-- C11: for every ASCII model id without white space and without an empty
hyphen-separated part, `formatModelName(id)` is the id with the first
character of every part that does not start with a digit upper-cased and the
hyphen before such a part replaced by one space, while a part that starts with
a digit is unchanged and stays joined by a hyphen; the result has the length
of the id. -/
theorem formatModelName_shown (id : String)
    (_hascii : ∀ c ∈ id.data, c.toNat < 128)
    (hspace : ∀ c ∈ id.data, isSpace c = false)
    (hparts : ∀ part ∈ splitHyphen id.data, part ≠ []) :
    formatModelName id = String.mk (shownName (splitHyphen id.data)) ∧
      (formatModelName id).length = id.length := by
  have h1 : formatModelName id = String.mk (shownName (splitHyphen id.data)) := by
    unfold formatModelName
    rw [dashBeforeDigit_joinSpace]
    intro part hpart
    exact ⟨hparts part hpart, fun c hc =>
      hspace c (mem_of_mem_splitHyphen id.data part hpart c hc)⟩
  refine ⟨h1, ?_⟩
  rw [h1]
  exact shownName_splitHyphen_length id.data

theorem formatModelName_shown_witness :
    formatModelName "gpt-4o-mini" = "Gpt-4o Mini" ∧
      (formatModelName "gpt-4o-mini").length = "gpt-4o-mini".length :=
  formatModelName_shown "gpt-4o-mini" (by decide) (by decide) (by decide)

/-! ## The catalog in the host's format -/

theorem getProp_setProp_same (o : JsObject) (k : String) (v : Json) (hk : k ≠ "__proto__") :
    getProp (setProp o k v) k = some v := by
  simp [setProp, hk, getProp_setOwn_same]

theorem getProp_setProp_other (o : JsObject) (k k2 : String) (v : Json) (hne : k ≠ k2) :
    getProp (setProp o k v) k2 = getProp o k2 := by
  unfold setProp
  split
  · rfl
  · exact getProp_setOwn_other o k k2 v hne

theorem getProp_addModels (models : List AtlasCloudModel) (result : JsObject) (id : String)
    (hid : id ≠ "__proto__") :
    getProp (addModels models result) id =
      match lastWithId id models with
      | some m => some (openCodeModel m)
      | none => getProp result id := by
  induction models generalizing result with
  | nil => rfl
  | cons model rest ih =>
    simp only [addModels, lastWithId]
    rw [ih]
    cases lastWithId id rest with
    | some m => rfl
    | none =>
      by_cases h : model.id = id
      · subst h
        simp [getProp_setProp_same _ _ _ hid]
      · simp [h, getProp_setProp_other _ _ _ _ h]

/-- For an id other than `__proto__`, the map holds under that id the entry of
the last model of the list that has it, and nothing when no model has it. -/
theorem getProp_modelsToOpenCodeFormat (models : List AtlasCloudModel) (id : String)
    (hid : id ≠ "__proto__") :
    getProp (modelsToOpenCodeFormat models) id = (lastWithId id models).map openCodeModel := by
  unfold modelsToOpenCodeFormat
  rw [getProp_addModels models [] id hid]
  cases lastWithId id models <;> rfl

/-- C12 (fails on the code): a model whose id is `__proto__` gets no key. For
the two models `__proto__` and `openai/gpt-4o`, with distinct ids,
`modelsToOpenCodeFormat` returns an object with the single key
`openai/gpt-4o`: the assignment `result["__proto__"] = ...` goes to the
inherited setter of plain objects and creates no own property. -/
theorem modelsToOpenCodeFormat_loses_proto_id :
    modelsToOpenCodeFormat
        [⟨"__proto__", "Proto", 128000, 8192⟩, ⟨"openai/gpt-4o", "GPT-4o", 128000, 16384⟩] =
      [("openai/gpt-4o", openCodeModel ⟨"openai/gpt-4o", "GPT-4o", 128000, 16384⟩)] ∧
    objectKeys (modelsToOpenCodeFormat
        [⟨"__proto__", "Proto", 128000, 8192⟩, ⟨"openai/gpt-4o", "GPT-4o", 128000, 16384⟩]) =
      ["openai/gpt-4o"] :=
  ⟨rfl, rfl⟩

/-! ## Tokens of a command -/

theorem splitSpaces_noSpace (inRun : Bool) (l : List Char) :
    ∀ token ∈ splitSpaces inRun l, ∀ c ∈ token, isSpace c = false := by
  induction l generalizing inRun with
  | nil => simp [splitSpaces]
  | cons x xs ih =>
    intro token ht c hc
    unfold splitSpaces at ht
    split at ht
    · split at ht
      · exact ih true token ht c hc
      · rcases List.mem_cons.1 ht with h | h
        · subst h; simp at hc
        · exact ih true token h c hc
    · rename_i hx
      split at ht
      · simp only [List.mem_singleton] at ht
        subst ht
        have hcx : c = x := by simpa using hc
        rw [hcx]
        simpa using hx
      · rename_i t ts hts
        rcases List.mem_cons.1 ht with h | h
        · subst h
          rcases List.mem_cons.1 hc with h2 | h2
          · rw [h2]; simpa using hx
          · exact ih false t (by rw [hts]; exact List.mem_cons_self _ _) c h2
        · exact ih false token (by rw [hts]; exact List.mem_cons_of_mem _ h) c hc

theorem splitSpaces_ne_nil (inRun : Bool) (l : List Char) : splitSpaces inRun l ≠ [] := by
  induction l generalizing inRun with
  | nil => simp [splitSpaces]
  | cons x xs ih =>
    unfold splitSpaces
    split
    · split
      · exact ih true
      · simp
    · split <;> simp

theorem splitSpaces_join (inRun : Bool) (l : List Char) :
    (splitSpaces inRun l).flatten = l.filter (fun c => !isSpace c) := by
  induction l generalizing inRun with
  | nil => simp [splitSpaces]
  | cons x xs ih =>
    unfold splitSpaces
    by_cases hx : isSpace x = true
    · simp only [hx, if_true, List.filter_cons, Bool.not_true]
      split
      · simpa using ih true
      · simpa using ih true
    · have hx2 : isSpace x = false := by simpa using hx
      simp only [hx2, List.filter_cons, Bool.not_false, if_true]
      cases hs : splitSpaces false xs with
      | nil => exact absurd hs (splitSpaces_ne_nil false xs)
      | cons t ts =>
        have := ih false
        rw [hs] at this
        simp only [Bool.false_eq_true, if_false]
        simpa using this

theorem filter_dropWhile_isSpace (l : List Char) :
    (l.dropWhile isSpace).filter (fun c => !isSpace c) = l.filter (fun c => !isSpace c) := by
  induction l with
  | nil => rfl
  | cons x xs ih =>
    by_cases hx : isSpace x = true
    · simp [List.dropWhile, hx, ih]
    · simp [List.dropWhile, hx]

theorem filter_trim (l : List Char) :
    (trim l).filter (fun c => !isSpace c) = l.filter (fun c => !isSpace c) := by
  unfold trim
  rw [List.filter_reverse, filter_dropWhile_isSpace, ← List.filter_reverse, List.reverse_reverse,
    filter_dropWhile_isSpace]

/-- The tokens of a command contain no white space, and put end to end they
are the characters of the command that are not white space, unchanged and in
order. -/
theorem commandParts_tokens (command : String) :
    (∀ token ∈ commandParts command, ∀ c ∈ token.data, isSpace c = false) ∧
      ((commandParts command).map String.data).flatten =
        command.data.filter (fun c => !isSpace c) := by
  constructor
  · intro token ht c hc
    unfold commandParts at ht
    obtain ⟨t, ht1, ht2⟩ := List.mem_map.1 ht
    subst ht2
    exact splitSpaces_noSpace false _ t ht1 c hc
  · unfold commandParts
    rw [List.map_map]
    have : (String.data ∘ String.mk) = id := by
      funext x
      rfl
    rw [this, List.map_id, splitSpaces_join, filter_trim]

/-! ## Command dispatch -/

theorem handleConnectCommand_handled (net : Net) (args : List String) (w w' : World)
    (r : CommandResult) (h : handleConnectCommand net args w = .ok r w') :
    r.handled = true := by
  unfold handleConnectCommand at h
  split at h
  · simp only [Outcome.ok.injEq] at h
    rw [← h.1]
  · split at h
    · simp only [Outcome.ok.injEq] at h
      rw [← h.1]
    · split at h
      · simp only [Outcome.ok.injEq] at h
        rw [← h.1]
      · split at h
        · simp only [Outcome.ok.injEq] at h
          rw [← h.1]
        · split at h
          · simp only [Outcome.ok.injEq] at h
            rw [← h.1]
          · cases h

theorem handleStatusCommand_handled (net : Net) (w w' : World) (r : CommandResult)
    (h : handleStatusCommand net w = .ok r w') : r.handled = true := by
  unfold handleStatusCommand at h
  split at h
  · simp only [Outcome.ok.injEq] at h
    rw [← h.1]
  · split at h
    · simp only [Outcome.ok.injEq] at h
      rw [← h.1]
    · split at h
      · split at h
        · simp only [Outcome.ok.injEq] at h
          rw [← h.1]
        · simp only [Outcome.ok.injEq] at h
          rw [← h.1]
      · split at h
        · simp only [Outcome.ok.injEq] at h
          rw [← h.1]
        · simp only [Outcome.ok.injEq] at h
          rw [← h.1]

theorem handleDisconnectCommand_handled (w w' : World) (r : CommandResult)
    (h : handleDisconnectCommand w = .ok r w') : r.handled = true := by
  unfold handleDisconnectCommand at h
  split at h
  · simp only [Outcome.ok.injEq] at h
    rw [← h.1]
  · split at h
    · simp only [Outcome.ok.injEq] at h
      rw [← h.1]
    · cases h

/-- C13: `handleCommand` works on the tokens of the trimmed command split on
white space, with the first two lower-cased (`cmdOf`, `subCmdOf`) and the rest
verbatim (`argsOf`). It returns `{handled: false}` without response or error,
and without touching the state, when `cmd` is not `atlascloud` and
(`cmd`, `subCmd`) is not (`connect`, `atlascloud`), and in no other case does a
returned result have `handled = false`. `connect atlascloud ...` and
`atlascloud connect ...` run the connect handler on `argsOf`,
`atlascloud status` and `atlascloud disconnect` run those handlers, and any
other or missing subcommand of `atlascloud` returns the help text with
`handled = true`. -/
theorem handleCommand_dispatch (net : Net) (command : String) (w : World) :
    (cmdOf command ≠ some "atlascloud" ∧
        ¬ (cmdOf command = some "connect" ∧ subCmdOf command = some "atlascloud") →
      handleCommand net command w =
        .ok { handled := false, response := none, error := none } w) ∧
    (∀ r w', handleCommand net command w = .ok r w' → r.handled = false →
      cmdOf command ≠ some "atlascloud" ∧
        ¬ (cmdOf command = some "connect" ∧ subCmdOf command = some "atlascloud")) ∧
    (cmdOf command = some "connect" ∧ subCmdOf command = some "atlascloud" →
      handleCommand net command w = handleConnectCommand net (argsOf command) w) ∧
    (cmdOf command = some "atlascloud" ∧ subCmdOf command = some "connect" →
      handleCommand net command w = handleConnectCommand net (argsOf command) w) ∧
    (cmdOf command = some "atlascloud" ∧ subCmdOf command = some "status" →
      handleCommand net command w = handleStatusCommand net w) ∧
    (cmdOf command = some "atlascloud" ∧ subCmdOf command = some "disconnect" →
      handleCommand net command w = handleDisconnectCommand w) ∧
    (cmdOf command = some "atlascloud" ∧ subCmdOf command ≠ some "connect" ∧
        subCmdOf command ≠ some "status" ∧ subCmdOf command ≠ some "disconnect" →
      handleCommand net command w =
        .ok { handled := true, response := some helpText, error := none } w) := by
  refine ⟨?_, ?_, ?_, ?_, ?_, ?_, ?_⟩
  · rintro ⟨h1, h2⟩
    simp only [handleCommand, h1, h2, if_false]
  · intro r w' h hr
    by_cases hc : cmdOf command = some "connect" ∧ subCmdOf command = some "atlascloud"
    · simp only [handleCommand, hc, and_self, if_true] at h
      rw [handleConnectCommand_handled net _ w w' r h] at hr
      cases hr
    · by_cases ha : cmdOf command = some "atlascloud"
      · have hno : ¬ ((some "atlascloud" : Option String) = some "connect" ∧
            subCmdOf command = some "atlascloud") := fun x => absurd x.1 (by decide)
        simp only [handleCommand, ha, if_true] at h
        simp only [hno, if_false] at h
        have ht : r.handled = true := by
          by_cases h1 : subCmdOf command = some "connect"
          · simp only [h1, if_true] at h
            exact handleConnectCommand_handled net _ w w' r h
          · by_cases h2 : subCmdOf command = some "status"
            · simp only [h2, if_true] at h
              simp only [show ¬ (some "status" = some "connect") by decide, if_false] at h
              exact handleStatusCommand_handled net w w' r h
            · by_cases h3 : subCmdOf command = some "disconnect"
              · simp only [h3, if_true] at h
                simp only [show ¬ (some "disconnect" = some "connect") by decide,
                  show ¬ (some "disconnect" = some "status") by decide, if_false] at h
                exact handleDisconnectCommand_handled w w' r h
              · simp only [h1, h2, h3, if_false, Outcome.ok.injEq] at h
                rw [← h.1]
        rw [ht] at hr
        cases hr
      · exact ⟨ha, hc⟩
  · rintro ⟨h1, h2⟩
    simp only [handleCommand, h1, h2, and_self, if_true]
  · rintro ⟨h1, h2⟩
    simp [handleCommand, h1, h2]
  · rintro ⟨h1, h2⟩
    simp [handleCommand, h1, h2]
  · rintro ⟨h1, h2⟩
    simp [handleCommand, h1, h2]
  · rintro ⟨h1, h2, h3, h4⟩
    simp [handleCommand, h1, h2, h3, h4]

theorem handleCommand_dispatch_witness :
    handleCommand netAccepting "  Connect   AtlasCloud sk-AbCdefghijkl  " worldEmpty =
      handleConnectCommand netAccepting ["sk-AbCdefghijkl"] worldEmpty :=
  (handleCommand_dispatch netAccepting "  Connect   AtlasCloud sk-AbCdefghijkl  "
    worldEmpty).2.2.1 ⟨by decide, by decide⟩

/-! ## The config hook -/

theorem configHook_of_record (modelsObject config provider : JsObject)
    (h : getProp config "provider" = some (.obj provider)) :
    configHook modelsObject config =
      .ok (setOwn config "provider"
        (.obj (setOwn provider "atlascloud" (providerConfig modelsObject)))) := by
  simp [configHook, h]

theorem configHook_of_falsy (modelsObject config : JsObject)
    (h : truthy (getProp config "provider") = false) :
    configHook modelsObject config =
      .ok (setOwn config "provider"
        (.obj [("atlascloud", providerConfig modelsObject)])) := by
  unfold configHook
  cases hp : getProp config "provider" with
  | none => rfl
  | some v =>
    rw [hp] at h
    cases v with
    | null => rfl
    | bool b =>
      cases b with
      | false => rfl
      | true => simp [truthy] at h
    | num n =>
      have hn : n = 0 := by simpa [truthy] using h
      simp [hn]
    | str s =>
      have hs : s = "" := by simpa [truthy] using h
      simp [hs]
    | arr items => simp [truthy] at h
    | obj fs => simp [truthy] at h

/-- C14: for every host config whose `provider` field is absent (or falsy) or
a record, as the host's `Config` type has it, the config hook of the plugin
returns, and afterwards `config.provider` is a record whose `atlascloud` entry
is `{id: "atlascloud", name: "Atlas Cloud", npm: "@ai-sdk/openai-compatible",
options: {baseURL: "https://api.atlascloud.ai/v1"}, models: M}` with `M` the
`modelsToOpenCodeFormat` of the catalog fetched at plugin start; the entry has
no `apiKey` field, every other entry of `config.provider` is as before (none
when the record was created) and every other top-level field is unchanged. -/
theorem configHook_registers_provider (net : Net) (w : World) (config : JsObject)
    (htyped : truthy (getProp config "provider") = false ∨
      ∃ provider, getProp config "provider" = some (.obj provider)) :
    ∃ config' provider' entry,
      configHook (AtlasCloudPlugin net w).1 config = .ok config' ∧
      getProp config' "provider" = some (.obj provider') ∧
      getProp provider' "atlascloud" = some (.obj entry) ∧
      entry =
        [("id", .str "atlascloud"), ("name", .str "Atlas Cloud"),
         ("npm", .str "@ai-sdk/openai-compatible"),
         ("options", .obj [("baseURL", .str "https://api.atlascloud.ai/v1")]),
         ("models", .obj (modelsToOpenCodeFormat (pluginModels net w).1))] ∧
      getProp entry "apiKey" = none ∧
      (∀ p, p ≠ "atlascloud" →
        getProp provider' p = (propOf (.obj config) "provider").bind (fun v => propOf v p)) ∧
      (∀ f, f ≠ "provider" → getProp config' f = getProp config f) := by
  have hM : (AtlasCloudPlugin net w).1 = modelsToOpenCodeFormat (pluginModels net w).1 := rfl
  rcases htyped with hf | ⟨provider, hp⟩
  · refine ⟨_, _, _, configHook_of_falsy _ config hf, getProp_setOwn_same _ _ _, rfl, ?_, rfl,
      ?_, fun f hf2 => getProp_setOwn_other _ _ _ _ (Ne.symm hf2)⟩
    · rw [hM]
    · intro p hp
      have h1 : getProp [("atlascloud", providerConfig (AtlasCloudPlugin net w).1)] p = none := by
        simp [getProp, Ne.symm hp]
      rw [h1]
      simp only [propOf]
      cases hv : getProp config "provider" with
      | none => rfl
      | some v =>
        rw [hv] at hf
        cases v with
        | obj fs => simp [truthy] at hf
        | null => rfl
        | bool b => rfl
        | num n => rfl
        | str s => rfl
        | arr items => rfl
  · refine ⟨_, _, _, configHook_of_record _ config provider hp, getProp_setOwn_same _ _ _,
      getProp_setOwn_same _ _ _, ?_, rfl, ?_,
      fun f hf2 => getProp_setOwn_other _ _ _ _ (Ne.symm hf2)⟩
    · rw [hM]
    · intro p hp2
      rw [getProp_setOwn_other _ _ _ _ (Ne.symm hp2)]
      simp [propOf, hp]

theorem configHook_registers_provider_witness :
    ∃ config' provider' entry,
      configHook (AtlasCloudPlugin netAccepting worldEmpty).1 sampleHostConfig = .ok config' ∧
      getProp config' "provider" = some (.obj provider') ∧
      getProp provider' "atlascloud" = some (.obj entry) ∧
      entry =
        [("id", .str "atlascloud"), ("name", .str "Atlas Cloud"),
         ("npm", .str "@ai-sdk/openai-compatible"),
         ("options", .obj [("baseURL", .str "https://api.atlascloud.ai/v1")]),
         ("models", .obj (modelsToOpenCodeFormat (pluginModels netAccepting worldEmpty).1))] ∧
      getProp entry "apiKey" = none ∧
      (∀ p, p ≠ "atlascloud" →
        getProp provider' p =
          (propOf (.obj sampleHostConfig) "provider").bind (fun v => propOf v p)) ∧
      (∀ f, f ≠ "provider" → getProp config' f = getProp sampleHostConfig f) :=
  configHook_registers_provider netAccepting worldEmpty sampleHostConfig
    (Or.inr ⟨[("openai", .obj [("npm", .str "@ai-sdk/openai")])], rfl⟩)

/-! ## Registering the plugin -/

namespace Setup

theorem isRegistered_path (pluginPath : String) :
    isRegistered pluginPath (.str pluginPath) = true := by
  simp [isRegistered]

theorem registerPlugin_of_array (s : SetupWorld) (fs : JsObject) (items : List Json)
    (hbuilt : s.built = true) (hfile : s.configFile = .holds (.obj fs))
    (hplugin : getProp fs "plugin" = some (.arr items)) :
    registerPlugin s = addIfAbsent fs items s := by
  simp [registerPlugin, loadConfig, hbuilt, hfile, hplugin]

theorem registerPlugin_when_listed (s : SetupWorld) (fs : JsObject) (items : List Json)
    (hbuilt : s.built = true) (hfile : s.configFile = .holds (.obj fs))
    (hplugin : getProp fs "plugin" = some (.arr items))
    (hany : items.any (isRegistered s.pluginPath) = true) :
    registerPlugin s = .ok s := by
  rw [registerPlugin_of_array s fs items hbuilt hfile hplugin]
  simp [addIfAbsent, hany]

theorem registerPlugin_of_absent (s : SetupWorld) (fs : JsObject)
    (hbuilt : s.built = true) (hfile : s.configFile = .holds (.obj fs))
    (hplugin : getProp fs "plugin" = none) :
    registerPlugin s = addIfAbsent (setOwn fs "plugin" (.arr [])) [] s := by
  simp [registerPlugin, loadConfig, hbuilt, hfile, hplugin, truthy]

theorem registerPlugin_not_built (s : SetupWorld) (hbuilt : s.built = false) :
    ∃ e, registerPlugin s = .threw e s := by
  simp [registerPlugin, hbuilt]

/-- What `addIfAbsent` does, for the config fields `fs0` of the file and the
fields `fs` in memory, which differ at most in `plugin`. -/
theorem addIfAbsent_spec (s : SetupWorld) (fs0 fs : JsObject) (items : List Json)
    (hbuilt : s.built = true) (hfile : s.configFile = .holds (.obj fs0))
    (hreg : registerPlugin s = addIfAbsent fs items s)
    (hother : ∀ f, f ≠ "plugin" → getProp fs f = getProp fs0 f) :
    (s.writeError = none → ∃ s1, registerPlugin s = .ok s1) ∧
    (∀ e s1, registerPlugin s = .threw e s1 → s1 = s) ∧
    (∀ s1, registerPlugin s = .ok s1 →
      (items.any (isRegistered s.pluginPath) = true → s1 = s) ∧
      (items.any (isRegistered s.pluginPath) = false →
        ∃ fs1, s1.configFile = .holds (.obj fs1) ∧
          getProp fs1 "plugin" = some (.arr (items ++ [.str s.pluginPath])) ∧
          (∀ f, f ≠ "plugin" → getProp fs1 f = getProp fs0 f) ∧
          (∀ p ∈ items, isString (some p) s.pluginPath = false) ∧
          registerPlugin s1 = .ok s1)) := by
  rw [hreg]
  unfold addIfAbsent saveConfig
  cases hany : items.any (isRegistered s.pluginPath) with
  | true =>
    refine ⟨fun _ => ⟨s, (by simp)⟩, fun e s1 h => (by simp at h), fun s1 h => ?_⟩
    simp only [if_true, SetupOutcome.ok.injEq] at h
    exact ⟨fun _ => h.symm, fun hf => (by cases hf)⟩
  | false =>
    simp only [Bool.false_eq_true, if_false]
    cases hw : s.writeError with
    | some e0 =>
      refine ⟨fun h => (by cases h), fun e s1 h => ?_, fun s1 h => (by simp at h)⟩
      simp only [SetupOutcome.threw.injEq] at h
      exact h.2.symm
    | none =>
      simp only [hfile]
      refine ⟨fun _ => ⟨_, rfl⟩, fun e s1 h => (by cases h), fun s1 h => ?_⟩
      simp only [SetupOutcome.ok.injEq] at h
      subst h
      refine ⟨fun hf => (by cases hf),
        fun _ => ⟨_, rfl, getProp_setOwn_same _ _ _, ?_, ?_, ?_⟩⟩
      · intro f hf
        rw [getProp_setOwn_other _ _ _ _ (Ne.symm hf)]
        exact hother f hf
      · intro p hp
        have h1 : isRegistered s.pluginPath p = false := by
          have := List.any_eq_false.1 hany p hp
          simpa using this
        cases p with
        | str t =>
          have h2 : (t == s.pluginPath) = false := by
            simp only [isRegistered, Bool.or_eq_false_iff] at h1
            exact h1.1.2
          simpa [isString] using h2
        | null => rfl
        | bool b => rfl
        | num n => rfl
        | arr xs => rfl
        | obj e => rfl
      · have hlisted :
            (items ++ [Json.str s.pluginPath]).any (isRegistered s.pluginPath) = true := by
          rw [List.any_append]
          simp [isRegistered_path]
        exact registerPlugin_when_listed _ _ (items ++ [.str s.pluginPath]) hbuilt rfl
          (getProp_setOwn_same _ _ _) hlisted

/-- C15: for an existing `opencode.json` that parses to an object whose
`plugin` field is absent or an array with the entries `items`,
`registerPlugin` returns when the plugin is built and the file can be written;
when it throws, nothing has changed; when it returns, either some entry is
the package name, the plugin path or a string containing the package name and
nothing has changed, or no entry is, and then the file holds the config with
`plugin` set to `items` followed by the plugin path, every other field as
before, the path was not among `items`, and a second run returns and changes
nothing. -/
theorem registerPlugin_idempotent (s : SetupWorld) (fs : JsObject) (items : List Json)
    (hfile : s.configFile = .holds (.obj fs))
    (hplugin : (getProp fs "plugin" = none ∧ items = []) ∨
      getProp fs "plugin" = some (.arr items)) :
    (s.built = true → s.writeError = none → ∃ s1, registerPlugin s = .ok s1) ∧
    (∀ e s1, registerPlugin s = .threw e s1 → s1 = s) ∧
    (∀ s1, registerPlugin s = .ok s1 →
      (items.any (isRegistered s.pluginPath) = true → s1 = s) ∧
      (items.any (isRegistered s.pluginPath) = false →
        ∃ fs1, s1.configFile = .holds (.obj fs1) ∧
          getProp fs1 "plugin" = some (.arr (items ++ [.str s.pluginPath])) ∧
          (∀ f, f ≠ "plugin" → getProp fs1 f = getProp fs f) ∧
          (∀ p ∈ items, isString (some p) s.pluginPath = false) ∧
          registerPlugin s1 = .ok s1)) := by
  cases hbuilt : s.built with
  | false =>
    obtain ⟨e0, he0⟩ := registerPlugin_not_built s hbuilt
    rw [he0]
    refine ⟨fun h => (by cases h), fun e s1 h => ?_, fun s1 h => (by cases h)⟩
    simp only [SetupOutcome.threw.injEq] at h
    exact h.2.symm
  | true =>
    have hspec : (s.writeError = none → ∃ s1, registerPlugin s = .ok s1) ∧
        (∀ e s1, registerPlugin s = .threw e s1 → s1 = s) ∧
        (∀ s1, registerPlugin s = .ok s1 →
          (items.any (isRegistered s.pluginPath) = true → s1 = s) ∧
          (items.any (isRegistered s.pluginPath) = false →
            ∃ fs1, s1.configFile = .holds (.obj fs1) ∧
              getProp fs1 "plugin" = some (.arr (items ++ [.str s.pluginPath])) ∧
              (∀ f, f ≠ "plugin" → getProp fs1 f = getProp fs f) ∧
              (∀ p ∈ items, isString (some p) s.pluginPath = false) ∧
              registerPlugin s1 = .ok s1)) := by
      rcases hplugin with ⟨hnone, hitems⟩ | harr
      · subst hitems
        exact addIfAbsent_spec s fs (setOwn fs "plugin" (.arr [])) [] hbuilt hfile
          (registerPlugin_of_absent s fs hbuilt hfile hnone)
          (fun f hf => getProp_setOwn_other _ _ _ _ (Ne.symm hf))
      · exact addIfAbsent_spec s fs fs items hbuilt hfile
          (registerPlugin_of_array s fs items hbuilt hfile harr) (fun _ _ => rfl)
    exact ⟨fun _ => hspec.1, hspec.2⟩

theorem registerPlugin_idempotent_witness :
    ∃ fs1, ({ sampleSetup with
        backupFile := sampleSetup.configFile,
        configFile := .holds (.obj [("theme", .str "dark"),
          ("plugin", .arr [.str "other-plugin", .str "/opt/atlas"])]) } : SetupWorld).configFile =
        .holds (.obj fs1) ∧
      getProp fs1 "plugin" = some (.arr ([.str "other-plugin"] ++ [.str "/opt/atlas"])) ∧
      (∀ f, f ≠ "plugin" →
        getProp fs1 f = getProp [("theme", .str "dark"),
          ("plugin", .arr [.str "other-plugin"])] f) ∧
      (∀ p ∈ [Json.str "other-plugin"], isString (some p) "/opt/atlas" = false) ∧
      registerPlugin { sampleSetup with
        backupFile := sampleSetup.configFile,
        configFile := .holds (.obj [("theme", .str "dark"),
          ("plugin", .arr [.str "other-plugin", .str "/opt/atlas"])]) } =
        .ok { sampleSetup with
          backupFile := sampleSetup.configFile,
          configFile := .holds (.obj [("theme", .str "dark"),
            ("plugin", .arr [.str "other-plugin", .str "/opt/atlas"])]) } :=
  ((registerPlugin_idempotent sampleSetup
      [("theme", .str "dark"), ("plugin", .arr [.str "other-plugin"])]
      [.str "other-plugin"] rfl (Or.inr rfl)).2.2 _ rfl).2 (by decide)

end Setup

/-! ## The heuristics -/

theorem startsWith_append (a b t : List Char) (h : startsWith (a ++ b) t = true) :
    startsWith a t = true := by
  induction a generalizing t with
  | nil => simp [startsWith]
  | cons x xs ih =>
    cases t with
    | nil => simp [startsWith] at h
    | cons y ys =>
      simp only [List.cons_append, startsWith, Bool.and_eq_true] at h ⊢
      exact ⟨h.1, ih ys h.2⟩

theorem includesChars_append (a b t : List Char) (h : includesChars (a ++ b) t = true) :
    includesChars a t = true := by
  induction t with
  | nil =>
    simp only [includesChars] at h ⊢
    exact startsWith_append a b [] h
  | cons y ys ih =>
    simp only [includesChars, Bool.or_eq_true] at h ⊢
    rcases h with h | h
    · exact Or.inl (startsWith_append a b _ h)
    · exact Or.inr (ih h)

/-- A string that includes a pattern includes every prefix of the pattern. -/
theorem includes_shorter (s p q : String) (r : List Char) (hq : q.data = p.data ++ r)
    (h : includes s q = true) : includes s p = true := by
  unfold includes at h ⊢
  rw [hq] at h
  exact includesChars_append _ _ _ h

theorem not_includes_longer (s p q : String) (r : List Char) (hq : q.data = p.data ++ r)
    (h : includes s p = false) : includes s q = false := by
  cases hi : includes s q with
  | false => rfl
  | true => rw [includes_shorter s p q r hq hi] at h; cases h

/-- C16: for every model id whose lower-cased form contains none of `claude`,
`o1`, `o3`, `gpt`, `gemini`, `deepseek`, `grok`, `llama`, `mistral`, `mixtral`,
`qwen`, `thinking`, `getModelContextLength(id)` is 128000 and
`getModelOutputTokens(id)` is 8192; both are total functions. -/
theorem heuristics_default (id : String)
    (h : ∀ p ∈ ["claude", "o1", "o3", "gpt", "gemini", "deepseek", "grok", "llama",
      "mistral", "mixtral", "qwen", "thinking"], includes (toLowerCase id) p = false) :
    getModelContextLength id = 128000 ∧ getModelOutputTokens id = 8192 := by
  have hclaude := h "claude" (by simp)
  have ho1 := h "o1" (by simp)
  have ho3 := h "o3" (by simp)
  have hgpt := h "gpt" (by simp)
  have hgemini := h "gemini" (by simp)
  have hdeepseek := h "deepseek" (by simp)
  have hgrok := h "grok" (by simp)
  have hllama := h "llama" (by simp)
  have hmistral := h "mistral" (by simp)
  have hmixtral := h "mixtral" (by simp)
  have hqwen := h "qwen" (by simp)
  have hthinking := h "thinking" (by simp)
  have g5 := not_includes_longer _ "gpt" "gpt-5" "-5".data rfl hgpt
  have g4 := not_includes_longer _ "gpt" "gpt-4" "-4".data rfl hgpt
  have g35 := not_includes_longer _ "gpt" "gpt-3.5" "-3.5".data rfl hgpt
  have g4o := not_includes_longer _ "gpt" "gpt-4o" "-4o".data rfl hgpt
  have g41 := not_includes_longer _ "gpt" "gpt-4.1" "-4.1".data rfl hgpt
  have ge3 := not_includes_longer _ "gemini" "gemini-3" "-3".data rfl hgemini
  have ge25 := not_includes_longer _ "gemini" "gemini-2.5" "-2.5".data rfl hgemini
  have ge3p := not_includes_longer _ "gemini" "gemini-3-pro" "-3-pro".data rfl hgemini
  have l405 := not_includes_longer _ "llama" "llama-3.1-405b" "-3.1-405b".data rfl hllama
  have l70 := not_includes_longer _ "llama" "llama-3.1-70b" "-3.1-70b".data rfl hllama
  have ml := not_includes_longer _ "mistral" "mistral-large" "-large".data rfl hmistral
  have q3 := not_includes_longer _ "qwen" "qwen3" "3".data rfl hqwen
  have dr1 := not_includes_longer _ "deepseek" "deepseek-r1" "-r1".data rfl hdeepseek
  have cs4 := not_includes_longer _ "claude" "claude-sonnet-4" "-sonnet-4".data rfl hclaude
  have co4 := not_includes_longer _ "claude" "claude-opus-4" "-opus-4".data rfl hclaude
  have gk4 := not_includes_longer _ "grok" "grok-4" "-4".data rfl hgrok
  constructor
  · simp [getModelContextLength, hclaude, ho1, ho3, g5, g4, g35, ge3, ge25, hgemini, hdeepseek,
      hgrok, l405, l70, hllama, ml, hmixtral, hmistral, q3, hqwen]
  · simp [getModelOutputTokens, ho1, ho3, dr1, hthinking, g5, ge3p, g4o, g41, cs4, co4, ge3, gk4,
      hclaude, hgemini, hdeepseek, hgpt, hqwen]

theorem heuristics_default_witness :
    getModelContextLength "Moonshot/Kimi-K2" = 128000 ∧
      getModelOutputTokens "Moonshot/Kimi-K2" = 8192 :=
  heuristics_default "Moonshot/Kimi-K2" (by decide)
theorem ite_le_of {c : Prop} [Decidable c] {a b n : Nat} (ha : c → a ≤ n) (hb : ¬ c → b ≤ n) :
    (if c then a else b) ≤ n := by
  split
  · exact ha ‹_›
  · exact hb ‹_›

theorem le_ite_of {c : Prop} [Decidable c] {a b n : Nat} (ha : c → n ≤ a) (hb : ¬ c → n ≤ b) :
    n ≤ (if c then a else b) := by
  split
  · exact ha ‹_›
  · exact hb ‹_›

theorem getModelOutputTokens_le (id : String) : getModelOutputTokens id ≤ 100000 := by
  unfold getModelOutputTokens
  repeat' (apply ite_le_of <;> intro _)
  all_goals decide

theorem getModelContextLength_ge (id : String) : 8192 ≤ getModelContextLength id := by
  unfold getModelContextLength
  repeat' (apply le_ite_of <;> intro _)
  all_goals decide

theorem getModelContextLength_large (id : String)
    (h : ∀ p ∈ ["gpt-3.5", "llama", "mistral", "mixtral", "qwen"],
      includes (toLowerCase id) p = false) :
    128000 ≤ getModelContextLength id := by
  have h35 := h "gpt-3.5" (by simp)
  have hllama := h "llama" (by simp)
  have hmistral := h "mistral" (by simp)
  have hmixtral := h "mixtral" (by simp)
  have hqwen := h "qwen" (by simp)
  have ml := not_includes_longer _ "mistral" "mistral-large" "-large".data rfl hmistral
  clear h
  unfold getModelContextLength
  repeat' (apply le_ite_of <;> intro _)
  all_goals first | decide | (exfalso; simp_all)

theorem output_le_context_plain (id : String)
    (h : ∀ p ∈ ["thinking", "deepseek-r1", "gemini-3-pro"],
      includes (toLowerCase id) p = false) :
    getModelOutputTokens id ≤ getModelContextLength id := by
  have hthinking := h "thinking" (by simp)
  have hr1 := h "deepseek-r1" (by simp)
  have h3p := h "gemini-3-pro" (by simp)
  have g4o := includes_shorter (toLowerCase id) "gpt-4" "gpt-4o" "o".data rfl
  have g41 := includes_shorter (toLowerCase id) "gpt-4" "gpt-4.1" ".1".data rfl
  have cs4 := includes_shorter (toLowerCase id) "claude" "claude-sonnet-4" "-sonnet-4".data rfl
  have co4 := includes_shorter (toLowerCase id) "claude" "claude-opus-4" "-opus-4".data rfl
  have gk4 := includes_shorter (toLowerCase id) "grok" "grok-4" "-4".data rfl
  clear h
  unfold getModelOutputTokens getModelContextLength
  repeat' (apply ite_le_of <;> intro _)
  all_goals repeat' (apply le_ite_of <;> intro _)
  all_goals first | decide | (exfalso; simp_all)

/-- C17 (as amended): for every model id whose lower-cased form contains none
of `gpt-3.5`, `llama`, `mistral`, `mixtral`, `qwen`, or none of `thinking`,
`deepseek-r1`, `gemini-3-pro`, the assigned output-token size does not exceed
the assigned context window. -/
theorem output_le_context (id : String)
    (h : (∀ p ∈ ["gpt-3.5", "llama", "mistral", "mixtral", "qwen"],
        includes (toLowerCase id) p = false) ∨
      (∀ p ∈ ["thinking", "deepseek-r1", "gemini-3-pro"],
        includes (toLowerCase id) p = false)) :
    getModelOutputTokens id ≤ getModelContextLength id := by
  rcases h with h | h
  · exact le_trans (getModelOutputTokens_le id)
      (le_trans (by decide) (getModelContextLength_large id h))
  · exact output_le_context_plain id h

theorem output_le_context_witness :
    getModelOutputTokens "deepseek-ai/deepseek-r1-0528" ≤
      getModelContextLength "deepseek-ai/deepseek-r1-0528" :=
  output_le_context "deepseek-ai/deepseek-r1-0528" (Or.inl (by decide))

/-- C17 (as stated) fails: the id `llama-thinking` is assigned the context
window 8192 (it contains `llama`) and the output-token size 65536 (it contains
`thinking`). -/
theorem output_exceeds_context :
    getModelContextLength "llama-thinking" = 8192 ∧
      getModelOutputTokens "llama-thinking" = 65536 ∧
      ¬ (getModelOutputTokens "llama-thinking" ≤ getModelContextLength "llama-thinking") := by
  decide

end AtlasCloud
